import Mathlib

/-!
# cloudflare-dns-updater: a shallow embedding of `main.go`

The program is one polling loop (`main`) around a cycle (`run`) that makes two
outbound calls: `getCurrentIP` and `updateCloudflareRecord`.

Modelling conventions.

* The process-wide variable `lastIP` is threaded through `run` explicitly.
* Everything that the code obtains from outside the process (environment
  variables, the HTTP exchanges) is read from a `World` value; a sequence of
  cycles is run against a list of worlds, one per cycle, so that outcomes are
  arbitrary and may differ from cycle to cycle.
* Every function returns, next to its Go result, the list of observable events
  it produced (log lines, library calls), in program order.
* A Go `error` is represented by its message text; `nil` is `none`.
* A Go string is a sequence of bytes (`GoString`), valid UTF-8 or not; `lit s`
  is the Go string that holds the text `s`.
* The body `json.Marshal` produces is represented by the JSON document it
  encodes, whose strings are texts; the bytes consumed by
  `json.Decoder.Decode` are represented by the decoded value.
* `http.NewRequest` parses its URL text as `url.Parse` does; a request goes to
  the scheme, host and request URI of the parsed URL.
* `int` and `time.Duration` are 64 bit: values are integers, wrapped explicitly
  where the code multiplies.
-/

namespace DnsUpdater

/-! ## Go strings -/

/-- A byte. -/
abbrev Byte := Fin 256

/-- A Go string: an arbitrary sequence of bytes, valid UTF-8 or not. -/
abbrev GoString := List Byte

/-- The byte with value `n` modulo 256. -/
def byteOf (n : Nat) : Byte := ⟨n % 256, Nat.mod_lt n (by decide)⟩

/-- The byte of an ASCII character. -/
def byte (c : Char) : Byte := byteOf c.toNat

/-- The UTF-8 encoding of one character. -/
def encodeRune (c : Char) : GoString :=
  let v := c.toNat
  if v < 0x80 then [byteOf v]
  else if v < 0x800 then [byteOf (0xC0 + v / 64), byteOf (0x80 + v % 64)]
  else if v < 0x10000 then
    [byteOf (0xE0 + v / 4096), byteOf (0x80 + v / 64 % 64), byteOf (0x80 + v % 64)]
  else
    [byteOf (0xF0 + v / 262144), byteOf (0x80 + v / 4096 % 64), byteOf (0x80 + v / 64 % 64),
      byteOf (0x80 + v % 64)]

/-- The UTF-8 encoding of a sequence of characters. -/
def encodeRunes : List Char → GoString
  | [] => []
  | c :: cs => encodeRune c ++ encodeRunes cs

/-- The Go string that holds the text `s`: its UTF-8 encoding. A string literal
of the source is the `lit` of its text. -/
def lit (s : String) : GoString := encodeRunes s.data

/-- The function `utf8.DecodeRune`: the character whose encoding starts `bs`,
with the length of that encoding; `none` where Go returns `RuneError` (no
byte, or a first byte that starts no well-formed encoding). -/
def decodeRune (bs : GoString) : Option (Char × Nat) :=
  match bs.map Fin.val with
  | [] => none
  | b0 :: t =>
    if b0 < 0x80 then some (Char.ofNat b0, 1)
    else if b0 < 0xC2 then none
    else if b0 < 0xE0 then
      match t with
      | b1 :: _ =>
        if 0x80 ≤ b1 ∧ b1 ≤ 0xBF then
          some (Char.ofNat ((b0 - 0xC0) * 64 + (b1 - 0x80)), 2)
        else none
      | _ => none
    else if b0 < 0xF0 then
      match t with
      | b1 :: b2 :: _ =>
        if (if b0 = 0xE0 then 0xA0 else 0x80) ≤ b1 ∧ b1 ≤ (if b0 = 0xED then 0x9F else 0xBF) ∧
            0x80 ≤ b2 ∧ b2 ≤ 0xBF then
          some (Char.ofNat ((b0 - 0xE0) * 4096 + (b1 - 0x80) * 64 + (b2 - 0x80)), 3)
        else none
      | _ => none
    else if b0 < 0xF5 then
      match t with
      | b1 :: b2 :: b3 :: _ =>
        if (if b0 = 0xF0 then 0x90 else 0x80) ≤ b1 ∧ b1 ≤ (if b0 = 0xF4 then 0x8F else 0xBF) ∧
            0x80 ≤ b2 ∧ b2 ≤ 0xBF ∧ 0x80 ≤ b3 ∧ b3 ≤ 0xBF then
          some (Char.ofNat ((b0 - 0xF0) * 262144 + (b1 - 0x80) * 4096 + (b2 - 0x80) * 64
            + (b3 - 0x80)), 4)
        else none
      | _ => none
    else none

/-- The characters of the JSON string that `json.Marshal` writes for a Go
string: each well-formed encoding gives its character, each other byte gives
U+FFFD. The first argument counts the bytes still to skip of an encoding
already read. -/
def jsonRunes : Nat → GoString → List Char
  | _, [] => []
  | skip + 1, _ :: bs => jsonRunes skip bs
  | 0, b :: bs =>
    match decodeRune (b :: bs) with
    | some (c, size) => c :: jsonRunes (size - 1) bs
    | none => Char.ofNat 0xFFFD :: jsonRunes 0 bs

/-- The text of the JSON string that `json.Marshal` writes for a Go string. -/
def jsonText (s : GoString) : String := ⟨jsonRunes 0 s⟩

/-! ## `net/url` -/

/-- The struct `url.URL`, without the user information. -/
structure URL where
  Scheme : GoString
  Opaque : GoString
  Host : GoString
  Path : GoString
  RawPath : GoString
  ForceQuery : Bool
  RawQuery : GoString
  Fragment : GoString
deriving DecidableEq, Repr

/-- The function `strings.Cut` for a separator of one byte: the text before the
first separator, the text after it, and whether there is one. -/
def cut (sep : Byte) : GoString → GoString × GoString × Bool
  | [] => ([], [], false)
  | b :: t =>
    if b = sep then ([], t, true)
    else ((b :: (cut sep t).1), (cut sep t).2.1, (cut sep t).2.2)

/-- The text before the first `sep`, and the rest from that `sep` on (empty when
there is none): `s[:i], s[i:]` for `i = strings.IndexByte(s, sep)`. -/
def breakAt (sep : Byte) : GoString → GoString × GoString
  | [] => ([], [])
  | b :: t =>
    if b = sep then ([], b :: t)
    else (b :: (breakAt sep t).1, (breakAt sep t).2)

/-- The function `stringContainsCTLByte`: a byte below 0x20, or 0x7f. -/
def stringContainsCTLByte (s : GoString) : Bool :=
  s.any (fun b => b.val < 0x20 || b.val = 0x7F)

/-- An ASCII letter. -/
def isLetter (b : Byte) : Bool :=
  (0x61 ≤ b.val && b.val ≤ 0x7A) || (0x41 ≤ b.val && b.val ≤ 0x5A)

/-- An ASCII digit. -/
def isDigit (b : Byte) : Bool :=
  0x30 ≤ b.val && b.val ≤ 0x39

/-- The function `ishex`. -/
def ishex (b : Byte) : Bool :=
  isDigit b || (0x61 ≤ b.val && b.val ≤ 0x66) || (0x41 ≤ b.val && b.val ≤ 0x46)

/-- The function `unhex`. -/
def unhex (b : Byte) : Nat :=
  if isDigit b then b.val - 0x30
  else if 0x61 ≤ b.val && b.val ≤ 0x66 then b.val - 0x61 + 10
  else if 0x41 ≤ b.val && b.val ≤ 0x46 then b.val - 0x41 + 10
  else 0

/-- The function `shouldEscape` in mode `encodePath`: letters, digits, the marks
`-_.~` and the reserved characters `$&+,/:;=@` stay; everything else, the
question mark included, is escaped. -/
def shouldEscapePath (b : Byte) : Bool :=
  if isLetter b || isDigit b then false
  else if b = byte '-' ∨ b = byte '_' ∨ b = byte '.' ∨ b = byte '~' then false
  else if b = byte '$' ∨ b = byte '&' ∨ b = byte '+' ∨ b = byte ',' ∨ b = byte '/' ∨
      b = byte ':' ∨ b = byte ';' ∨ b = byte '=' ∨ b = byte '@' then false
  else true

/-- The digit of `upperhex` for a value below 16. -/
def upperhex (n : Nat) : Byte :=
  if n < 10 then byteOf (0x30 + n) else byteOf (0x41 + (n - 10))

/-- The function `escape` in mode `encodePath`. -/
def escapePath : GoString → GoString
  | [] => []
  | b :: t =>
    if shouldEscapePath b then
      byte '%' :: upperhex (b.val / 16) :: upperhex (b.val % 16) :: escapePath t
    else b :: escapePath t

/-- The function `unescape` in the modes for a path and a fragment: every `%`
must be followed by two hex digits, else the error is the offending escape (at
most three bytes); escapes are decoded, every other byte is kept. -/
def unescape : GoString → Except GoString GoString
  | [] => .ok []
  | b :: t =>
    if b = byte '%' then
      match t with
      | h1 :: h2 :: t2 =>
        if ishex h1 && ishex h2 then
          match unescape t2 with
          | .ok r => .ok (byteOf (unhex h1 * 16 + unhex h2) :: r)
          | .error e => .error e
        else .error [b, h1, h2]
      | _ => .error (b :: t)
    else
      match unescape t with
      | .ok r => .ok (b :: r)
      | .error e => .error e

/-- A byte that `validEncoded` accepts in mode `encodePath`: one of
`!$&'()*+,;=:@[]`, the percent sign, or a byte that is not to be escaped. -/
def validEncodedByte (b : Byte) : Bool :=
  (b = byte '!' ∨ b = byte '$' ∨ b = byte '&' ∨ b = byte '\'' ∨ b = byte '(' ∨ b = byte ')' ∨
    b = byte '*' ∨ b = byte '+' ∨ b = byte ',' ∨ b = byte ';' ∨ b = byte '=' ∨ b = byte ':' ∨
    b = byte '@' ∨ b = byte '[' ∨ b = byte ']' ∨ b = byte '%') || !shouldEscapePath b

/-- The function `validEncoded` in mode `encodePath`. -/
def validEncodedPath (s : GoString) : Bool :=
  s.all validEncodedByte

/-- The loop of `getScheme`: `acc` is the text read so far. -/
def getSchemeLoop (rawURL : GoString) : GoString → GoString → Except GoString (GoString × GoString)
  | _, [] => .ok ([], rawURL)
  | acc, c :: t =>
    if isLetter c then getSchemeLoop rawURL (acc ++ [c]) t
    else if isDigit c ∨ c = byte '+' ∨ c = byte '-' ∨ c = byte '.' then
      if acc = [] then .ok ([], rawURL) else getSchemeLoop rawURL (acc ++ [c]) t
    else if c = byte ':' then
      if acc = [] then .error (lit "missing protocol scheme") else .ok (acc, t)
    else .ok ([], rawURL)

/-- The function `getScheme`: the scheme and the text after its colon. -/
def getScheme (rawURL : GoString) : Except GoString (GoString × GoString) :=
  getSchemeLoop rawURL [] rawURL

/-- The function `strings.ToLower` on a text of ASCII characters. -/
def toLower (s : GoString) : GoString :=
  s.map (fun b => if 0x41 ≤ b.val ∧ b.val ≤ 0x5A then byteOf (b.val + 0x20) else b)

/-- The text of an `EscapeError`. -/
def escapeErrorText (quote : GoString → GoString) (e : GoString) : GoString :=
  lit "invalid URL escape " ++ quote e

/-- The method `setPath`: `Path` is the unescaped text, and `RawPath` keeps the
text when it is not the default escaping of `Path`. -/
def setPath (quote : GoString → GoString) (u : URL) (p : GoString) : Except GoString URL :=
  match unescape p with
  | .error e => .error (escapeErrorText quote e)
  | .ok path =>
    if p = escapePath path then .ok { u with Path := path, RawPath := [] }
    else .ok { u with Path := path, RawPath := p }

/-- The function `parse` of `net/url` (not via a request). The authority is
taken as the host: this is what `parseAuthority` returns for an authority that
is a plain host name without user information, port, brackets or escapes, as
the authority of `cloudflareAPI` is. -/
def parse (quote : GoString → GoString) (rawURL : GoString) : Except GoString URL :=
  if stringContainsCTLByte rawURL then
    .error (lit "net/url: invalid control character in URL")
  else if rawURL = lit "*" then
    .ok { Scheme := [], Opaque := [], Host := [], Path := lit "*", RawPath := [],
          ForceQuery := false, RawQuery := [], Fragment := [] }
  else
    match getScheme rawURL with
    | .error e => .error e
    | .ok (scheme, rest0) =>
      let scheme := toLower scheme
      let force : Bool := rest0.getLast? = some (byte '?') ∧ rest0.count (byte '?') = 1
      let rest := if force then rest0.dropLast else (cut (byte '?') rest0).1
      let rawQuery := if force then [] else (cut (byte '?') rest0).2.1
      let u : URL := { Scheme := scheme, Opaque := [], Host := [], Path := [], RawPath := [],
                       ForceQuery := force, RawQuery := rawQuery, Fragment := [] }
      if rest.head? ≠ some (byte '/') ∧ scheme ≠ [] then
        .ok { u with Opaque := rest }
      else if rest.head? ≠ some (byte '/') ∧ byte ':' ∈ (cut (byte '/') rest).1 then
        .error (lit "first path segment in URL cannot contain colon")
      else if (scheme ≠ [] ∨ ¬ (lit "///").isPrefixOf rest) ∧ (lit "//").isPrefixOf rest then
        let authority := (breakAt (byte '/') (rest.drop 2)).1
        let rest := (breakAt (byte '/') (rest.drop 2)).2
        setPath quote { u with Host := authority } rest
      else
        setPath quote u rest

/-- The function `url.Parse`: the fragment is cut off at the first `#`, the
rest is parsed, and the fragment is unescaped. -/
def urlParse (quote : GoString → GoString) (rawURL : GoString) : Except GoString URL :=
  let u := (cut (byte '#') rawURL).1
  let frag := (cut (byte '#') rawURL).2.1
  match parse quote u with
  | .error e => .error (lit "parse " ++ quote u ++ lit ": " ++ e)
  | .ok url =>
    if frag = [] then .ok url
    else
      match unescape frag with
      | .error e => .error (lit "parse " ++ quote rawURL ++ lit ": " ++ escapeErrorText quote e)
      | .ok f => .ok { url with Fragment := f }

/-- The method `EscapedPath`. -/
def EscapedPath (u : URL) : GoString :=
  let rawFits : Bool :=
    match unescape u.RawPath with
    | .ok p => p = u.Path
    | .error _ => false
  if u.RawPath ≠ [] ∧ validEncodedPath u.RawPath ∧ rawFits then u.RawPath
  else if u.Path = lit "*" then lit "*"
  else escapePath u.Path

/-- The method `RequestURI`: what is written on the request line. -/
def RequestURI (u : URL) : GoString :=
  let result :=
    if u.Opaque = [] then
      (if EscapedPath u = [] then lit "/" else EscapedPath u)
    else if (lit "//").isPrefixOf u.Opaque then u.Scheme ++ lit ":" ++ u.Opaque
    else u.Opaque
  if u.ForceQuery ∨ u.RawQuery ≠ [] then result ++ lit "?" ++ u.RawQuery else result

/-! ## Constants and data types of `main.go` -/

/-- The constant `ipCheckAPI`. -/
def ipCheckAPI : GoString := lit "https://api.ipify.org"

/-- The constant `cloudflareAPI`. -/
def cloudflareAPI : GoString := lit "https://api.cloudflare.com/client/v4"

/-- The struct `UpdateDNSRequest`; the field `Type` is spelled `Typ` here. -/
structure UpdateDNSRequest where
  Typ : GoString
  Name : GoString
  Content : GoString
  TTL : Int
  Proxied : Bool
deriving DecidableEq, Repr

/-- One element of `CloudflareResponse.Errors` (an anonymous struct in the source). -/
structure ErrorEntry where
  Message : GoString
deriving DecidableEq, Repr

/-- The struct `CloudflareResponse`. -/
structure CloudflareResponse where
  Success : Bool
  Errors : List ErrorEntry
deriving DecidableEq, Repr

/-- A JSON scalar, as far as `UpdateDNSRequest` needs them. A JSON string is a
text, not a sequence of bytes. -/
inductive JsonValue where
  | str (s : String)
  | num (n : Int)
  | bool (b : Bool)
deriving DecidableEq, Repr

/-- A flat JSON object: its members in the order they are written. -/
abbrev JsonObject := List (String × JsonValue)

/-- The JSON document `json.Marshal` writes for an `UpdateDNSRequest`: one
member per field, named by the field tag, in declaration order; a string field
gives the JSON string `jsonText` of its bytes. Marshalling a struct of strings,
an int and a bool has no failing case. -/
def jsonMarshal (r : UpdateDNSRequest) : Except GoString JsonObject :=
  .ok [("type", .str (jsonText r.Typ)), ("name", .str (jsonText r.Name)),
       ("content", .str (jsonText r.Content)), ("ttl", .num r.TTL),
       ("proxied", .bool r.Proxied)]

/-- An outgoing `*http.Request`: method, parsed URL, header fields, and the
JSON document its body holds. -/
structure Request where
  method : GoString
  url : URL
  header : List (GoString × GoString)
  body : JsonObject
deriving DecidableEq, Repr

/-- Where a request goes: the scheme and host the client connects to, followed
by the request URI it writes on the request line. The fragment of the URL is
not part of it. -/
def requestTarget (r : Request) : GoString :=
  r.url.Scheme ++ lit "://" ++ r.url.Host ++ RequestURI r.url

/-- The function `http.NewRequest` for a valid method (`PUT` is one): the URL
text is parsed, and the request starts with an empty header. -/
def httpNewRequest (quote : GoString → GoString) (method url : GoString) (body : JsonObject) :
    Except GoString Request :=
  match urlParse quote url with
  | .error err => .error err
  | .ok u => .ok { method := method, url := u, header := [], body := body }

/-- The method `Header.Set`: the field `key` gets the single value `value`,
replacing what it had. Both keys the program sets are already in canonical form. -/
def headerSet (h : List (GoString × GoString)) (key value : GoString) :
    List (GoString × GoString) :=
  h.filter (fun kv => kv.1 != key) ++ [(key, value)]

/-- What `http.Get` followed by `io.ReadAll` of the body yields. -/
inductive GetOutcome where
  | getFailed (err : GoString)
  | readFailed (err : GoString)
  | body (bytes : GoString)
deriving DecidableEq, Repr

/-- What `http.DefaultClient.Do` followed by decoding the body into a
`CloudflareResponse` yields. -/
inductive Exchange where
  | sendFailed (err : GoString)
  | decodeFailed (err : GoString)
  | decoded (resp : CloudflareResponse)
deriving DecidableEq, Repr

/-- The surroundings of the process during one cycle. -/
structure World where
  /-- The function `os.Getenv`: the empty string for an unset variable. -/
  getenv : String → GoString
  /-- The exchange with the address echo service, by URL. -/
  httpGet : GoString → GetOutcome
  /-- The exchange with the provider, by request. -/
  roundTrip : Request → Exchange
  /-- The function `strconv.Quote`, used in the text of library errors. -/
  quote : GoString → GoString

/-- Observable events, in program order. -/
inductive Event where
  /-- One line written by the `log` package. -/
  | log (line : GoString)
  /-- A call of `http.Get`. -/
  | get (url : GoString)
  /-- A call of `http.NewRequest`. -/
  | build (method url : GoString)
  /-- A call of `http.DefaultClient.Do`. -/
  | send (req : Request)
  /-- A call of `updateCloudflareRecord` with `ip`, and the error it returned. -/
  | update (ip : GoString) (err : Option GoString)
deriving DecidableEq, Repr

/-! ## The functions of `main.go` -/

/-- The function `getCurrentIP`: the body of the answer, byte for byte. -/
def getCurrentIP (w : World) : Except GoString GoString × List Event :=
  match w.httpGet ipCheckAPI with
  | .getFailed err => (.error (lit "failed to get current IP: " ++ err), [.get ipCheckAPI])
  | .readFailed err => (.error (lit "failed to read IP response: " ++ err), [.get ipCheckAPI])
  | .body ip => (.ok ip, [.get ipCheckAPI])

/-- How `%+v` prints one element of `Errors`. -/
def formatErrorEntry (e : ErrorEntry) : GoString :=
  lit "\x7bMessage:" ++ e.Message ++ lit "\x7d"

/-- The elements of a slice as `%+v` prints them: separated by one blank. -/
def formatElems : List ErrorEntry → GoString
  | [] => []
  | [e] => formatErrorEntry e
  | e :: e2 :: es => formatErrorEntry e ++ lit " " ++ formatElems (e2 :: es)

/-- How `%+v` prints `cfResp.Errors`. -/
def formatErrors (es : List ErrorEntry) : GoString :=
  lit "[" ++ formatElems es ++ lit "]"

/-- The text of the error returned when a required variable is missing. -/
def missingEnvError : GoString := lit "missing one or more required environment variables"

/-- The function `updateCloudflareRecord`: the returned error (`none` for `nil`)
and the library calls it made. -/
def updateCloudflareRecord (w : World) (ip : GoString) : Option GoString × List Event :=
  let apiToken := w.getenv "CF_API_TOKEN"
  let zoneID := w.getenv "CF_ZONE_ID"
  let recordID := w.getenv "CF_RECORD_ID"
  let recordName := w.getenv "CF_RECORD_NAME"
  if apiToken = [] ∨ zoneID = [] ∨ recordID = [] ∨ recordName = [] then
    (some missingEnvError, [])
  else
    let reqBody : UpdateDNSRequest :=
      { Typ := lit "A", Name := recordName, Content := ip, TTL := 1, Proxied := false }
    match jsonMarshal reqBody with
    | .error err => (some (lit "failed to marshal update request: " ++ err), [])
    | .ok bodyBytes =>
      let url := cloudflareAPI ++ lit "/zones/" ++ zoneID ++ lit "/dns_records/" ++ recordID
      match httpNewRequest w.quote (lit "PUT") url bodyBytes with
      | .error err => (some (lit "failed to build request: " ++ err), [.build (lit "PUT") url])
      | .ok req =>
        let req := { req with
          header := headerSet req.header (lit "Authorization") (lit "Bearer " ++ apiToken) }
        let req := { req with
          header := headerSet req.header (lit "Content-Type") (lit "application/json") }
        match w.roundTrip req with
        | .sendFailed err =>
          (some (lit "failed to send update request: " ++ err),
            [.build (lit "PUT") url, .send req])
        | .decodeFailed err =>
          (some (lit "failed to parse Cloudflare response: " ++ err),
            [.build (lit "PUT") url, .send req])
        | .decoded cfResp =>
          if !cfResp.Success then
            (some (lit "Cloudflare API returned error: " ++ formatErrors cfResp.Errors),
              [.build (lit "PUT") url, .send req])
          else
            (none, [.build (lit "PUT") url, .send req])

/-- The function `run`, one cycle: the value of `lastIP` after it, and its events. -/
def run (w : World) (lastIP : GoString) : GoString × List Event :=
  match getCurrentIP w with
  | (.error err, t) => (lastIP, t ++ [.log (lit "Error checking current IP: " ++ err)])
  | (.ok currentIP, t) =>
    let t := t ++ [.log (lit "Current IP: " ++ currentIP)]
    if lastIP = currentIP then
      (lastIP, t ++ [.log (lit "IP has not changed, no update needed.")])
    else
      match updateCloudflareRecord w currentIP with
      | (some err, u) =>
        (lastIP, t ++ u ++ [.update currentIP (some err),
          .log (lit "Failed to update Cloudflare record: " ++ err)])
      | (none, u) =>
        (currentIP, t ++ u ++ [.update currentIP none,
          .log (lit "Successfully updated Cloudflare DNS record to " ++ currentIP)])

/-! ## `strconv.Atoi`, `time.Tick` and `main` -/

/-- The two kinds of error `strconv.Atoi` reports: invalid text (`ErrSyntax`)
and a value outside the range of `int` (`ErrRange`). -/
inductive NumErrKind where
  | invalid
  | range
deriving DecidableEq, Repr

/-- The value of a decimal digit, `none` for any other byte. -/
def digitVal (c : Byte) : Option Nat :=
  if 0x30 ≤ c.val ∧ c.val ≤ 0x39 then some (c.val - 0x30) else none

/-- The digit loop of `strconv.ParseUint` in base 10 with 64 bits: a byte that
is no digit is invalid; a digit that takes the value past `2^64 - 1` is a range
error. -/
def parseUintLoop : GoString → Nat → Except NumErrKind Nat
  | [], n => .ok n
  | c :: cs, n =>
    match digitVal c with
    | none => .error .invalid
    | some d =>
      if n ≥ (2 ^ 64 - 1) / 10 + 1 then .error .range
      else if n * 10 + d > 2 ^ 64 - 1 then .error .range
      else parseUintLoop cs (n * 10 + d)

/-- The function `strconv.ParseUint(s, 10, 64)`. -/
def parseUint (s : GoString) : Except NumErrKind Nat :=
  if s = [] then .error .invalid else parseUintLoop s 0

/-- The function `strconv.ParseInt(s, 10, 0)` with a 64 bit `int`: an optional
sign, then `ParseUint`, then the range of `int64`. -/
def parseInt (s : GoString) : Except NumErrKind Int :=
  if s = [] then .error .invalid
  else
    let neg : Bool := s.head? = some (byte '-')
    let digits := if s.head? = some (byte '+') ∨ s.head? = some (byte '-') then s.drop 1 else s
    match parseUint digits with
    | .error k => .error k
    | .ok un =>
      if !neg && un ≥ 2 ^ 63 then .error .range
      else if neg && un > 2 ^ 63 then .error .range
      else .ok (if neg then -(un : Int) else (un : Int))

/-- The function `strconv.Atoi` with a 64 bit `int`. Its fast path for short
texts computes what `ParseInt` computes. -/
def Atoi (s : GoString) : Except NumErrKind Int :=
  parseInt s

/-- The text of the `*strconv.NumError` that `Atoi` returns for `s`. -/
def numErrorText (w : World) (s : GoString) : NumErrKind → GoString
  | .invalid => lit "strconv.Atoi: parsing " ++ w.quote s ++ lit ": invalid syntax"
  | .range => lit "strconv.Atoi: parsing " ++ w.quote s ++ lit ": value out of range"

/-- The constant `time.Minute`, in nanoseconds. -/
def timeMinute : Int := 60 * 1000000000

/-- A 64 bit signed integer: the value of `x` after wrapping. -/
def wrapInt64 (x : Int) : Int :=
  (x + 2 ^ 63) % 2 ^ 64 - 2 ^ 63

/-- The function `time.Tick`: a channel that delivers every `d` nanoseconds,
and no channel (`nil`) when `d ≤ 0`. -/
def timeTick (d : Int) : Option Int :=
  if d ≤ 0 then none else some d

/-- What one `select` of the loop in `main` receives: the shutdown signal, or a
tick, which starts a cycle in the world of that moment. -/
inductive Select where
  | done
  | tick (w : World)

/-- The `for`/`select` loop of `main`. A `nil` ticker never delivers, so without
a ticker only the shutdown signal is received. An exhausted list is a loop still
waiting. -/
def loop (tc : Option Int) (lastIP : GoString) : List Select → GoString × List Event
  | [] => (lastIP, [])
  | .done :: _ => (lastIP, [.log (lit "Shutting down gracefully...")])
  | .tick w :: rest =>
    match tc with
    | none => loop tc lastIP rest
    | some _ =>
      let r := run w lastIP
      let r2 := loop tc r.1 rest
      (r2.1, r.2 ++ r2.2)

/-- What an execution of `main` did. -/
structure MainRun where
  /-- The variable `intervalMinutes` after the default was applied. -/
  intervalMinutes : Int
  /-- The duration handed to `time.Tick`, in nanoseconds. -/
  period : Int
  /-- The ticker channel. -/
  tc : Option Int
  /-- The events before the first cycle. -/
  startup : List Event
  /-- The events of the first cycle. -/
  first : List Event
  /-- The events of the loop. -/
  rest : List Event
  /-- The variable `lastIP` at the end. -/
  lastIP : GoString

/-- The function `main`, started in world `w` (the environment after
`godotenv.Load`), with `lastIP` at its zero value, receiving `sel` in its loop. -/
def main (w : World) (sel : List Select) : MainRun :=
  let parsed : Int × List Event :=
    match Atoi (w.getenv "INTERVAL_MINUTES") with
    | .error k =>
      (10, [.log (lit "Invalid INTERVAL_MINUTES value: " ++
              numErrorText w (w.getenv "INTERVAL_MINUTES") k),
            .log (lit "Using default interval of 10 minutes.")])
    | .ok n => (n, [])
  let r := run w []
  let period := wrapInt64 (parsed.1 * timeMinute)
  let tc := timeTick period
  let l := loop tc r.1 sel
  { intervalMinutes := parsed.1, period := period, tc := tc,
    startup := parsed.2, first := r.2, rest := l.2, lastIP := l.1 }

/-! ## Reading traces -/

/-- The calls of `updateCloudflareRecord` in a trace: argument and returned error. -/
def updateCalls : List Event → List (GoString × Option GoString)
  | [] => []
  | .update ip err :: t => (ip, err) :: updateCalls t
  | _ :: t => updateCalls t

/-- The requests handed to `http.DefaultClient.Do` in a trace. -/
def sentRequests : List Event → List Request
  | [] => []
  | .send req :: t => req :: sentRequests t
  | _ :: t => sentRequests t

/-- The calls of `http.NewRequest` in a trace. -/
def builtRequests : List Event → List (GoString × GoString)
  | [] => []
  | .build m u :: t => (m, u) :: builtRequests t
  | _ :: t => builtRequests t

/-- The lines written to the log in a trace. -/
def logLines : List Event → List GoString
  | [] => []
  | .log line :: t => line :: logLines t
  | _ :: t => logLines t

/-- The argument of the most recent call in `calls` that returned `nil`, and
`dflt` when there is none. -/
def lastSuccess (dflt : GoString) : List (GoString × Option GoString) → GoString
  | [] => dflt
  | (ip, none) :: t => lastSuccess ip t
  | (_, some _) :: t => lastSuccess dflt t

/-- A sequence of cycles, one per world, from a given `lastIP`. -/
def runAll : List World → GoString → GoString × List Event
  | [], lastIP => (lastIP, [])
  | w :: ws, lastIP =>
    let r := run w lastIP
    let r2 := runAll ws r.1
    (r2.1, r.2 ++ r2.2)

/-- The text of the URL that `updateCloudflareRecord` hands to `http.NewRequest`. -/
def recordURLText (w : World) : GoString :=
  cloudflareAPI ++ lit "/zones/" ++ w.getenv "CF_ZONE_ID" ++ lit "/dns_records/"
    ++ w.getenv "CF_RECORD_ID"

/-- The request `updateCloudflareRecord` hands to the client once the URL text
has been parsed to `u`: a PUT with the bearer credential, carrying the five
members of the record. -/
def builtRequest (w : World) (ip : GoString) (u : URL) : Request :=
  { method := lit "PUT"
    url := u
    header := [(lit "Authorization", lit "Bearer " ++ w.getenv "CF_API_TOKEN"),
      (lit "Content-Type", lit "application/json")]
    body := [("type", .str "A"), ("name", .str (jsonText (w.getenv "CF_RECORD_NAME"))),
      ("content", .str (jsonText ip)), ("ttl", .num 1), ("proxied", .bool false)] }

/-- The error of an exchange with the provider: transport and decoding
failures, and a response whose success flag is false. -/
def exchangeError : Exchange → Option GoString
  | .sendFailed err => some (lit "failed to send update request: " ++ err)
  | .decodeFailed err => some (lit "failed to parse Cloudflare response: " ++ err)
  | .decoded resp =>
    if resp.Success then none
    else some (lit "Cloudflare API returned error: " ++ formatErrors resp.Errors)

/-- The text `t` contains the text `m`. -/
def containsText (t m : GoString) : Prop :=
  List.IsInfix m t

instance containsTextDecidable (t m : GoString) : Decidable (containsText t m) :=
  inferInstanceAs (Decidable (List.IsInfix m t))

/-! ## Sample worlds -/

/-- A complete configuration, with `INTERVAL_MINUTES` as given. -/
def sampleEnv (interval : String) (key : String) : GoString :=
  if key = "CF_API_TOKEN" then lit "tok"
  else if key = "CF_ZONE_ID" then lit "z1"
  else if key = "CF_RECORD_ID" then lit "r1"
  else if key = "CF_RECORD_NAME" then lit "home.example.com"
  else if key = "INTERVAL_MINUTES" then lit interval
  else []

/-- A configuration without `CF_ZONE_ID`. -/
def noZoneEnv (key : String) : GoString :=
  if key = "CF_ZONE_ID" then [] else sampleEnv "" key

/-- A complete configuration whose zone id holds a number sign. -/
def hashZoneEnv (key : String) : GoString :=
  if key = "CF_ZONE_ID" then lit "z1#x" else sampleEnv "" key

/-- The function `strconv.Quote` on a text of printable ASCII characters
without quotation mark or backslash. -/
def plainQuote (s : GoString) : GoString :=
  lit "\"" ++ s ++ lit "\""

/-- A world: its environment, the bytes the echo service returns, and the
answer of the provider to every request. -/
def sampleWorld (env : String → GoString) (ip : GoString) (answer : Exchange) : World :=
  { getenv := env
    httpGet := fun _ => .body ip
    roundTrip := fun _ => answer
    quote := plainQuote }

/-- A world in which the echo service cannot be reached. -/
def offlineWorld : World :=
  { getenv := sampleEnv ""
    httpGet := fun _ => .getFailed (lit "dial tcp: no route to host")
    roundTrip := fun _ => .sendFailed (lit "dial tcp: no route to host")
    quote := plainQuote }

/-- The provider answer with the success flag set and no errors. -/
def okAnswer : Exchange := .decoded { Success := true, Errors := [] }

/-- The provider answer with the success flag cleared and the one error
message "record not found". -/
def notFoundAnswer : Exchange :=
  .decoded { Success := false, Errors := [{ Message := lit "record not found" }] }

/-- A sequence of four cycles: an update that the provider rejects, one
that it accepts, a cycle without network, and a rejected change of address. -/
def sampleCycles : List World :=
  [sampleWorld (sampleEnv "") (lit "203.0.113.5") notFoundAnswer,
   sampleWorld (sampleEnv "") (lit "203.0.113.5") okAnswer,
   offlineWorld,
   sampleWorld (sampleEnv "") (lit "198.51.100.7") notFoundAnswer]

/-- The URL of the record of the sample configuration, as parsed. -/
def sampleURL : URL :=
  { Scheme := lit "https", Opaque := [], Host := lit "api.cloudflare.com",
    Path := lit "/client/v4/zones/z1/dns_records/r1", RawPath := [],
    ForceQuery := false, RawQuery := [], Fragment := [] }

/-- An echo body that is not valid UTF-8: the byte 0xFF before "1.2". -/
def strayBody : GoString := byteOf 0xFF :: lit "1.2"

/-! ## Lemmas on Go strings -/

theorem char_range (c : Char) :
    c.toNat < 0xD800 ∨ (0xDFFF < c.toNat ∧ c.toNat < 0x110000) := by
  have h := c.valid
  unfold UInt32.isValidChar Nat.isValidChar at h
  exact h

theorem byteOf_val (n : Nat) (h : n < 256) : (byteOf n).val = n := by
  simp [byteOf, Nat.mod_eq_of_lt h]

theorem decodeRune_encodeRune (c : Char) (rest : GoString) :
    decodeRune (encodeRune c ++ rest) = some (c, (encodeRune c).length) := by
  have hr := char_range c
  have hc := Char.ofNat_toNat c
  unfold encodeRune
  simp only
  split_ifs with h1 h2 h3
  · have e : (byteOf c.toNat).val = c.toNat := byteOf_val _ (by omega)
    simp [decodeRune, e, h1, hc]
  · have e0 : (byteOf (0xC0 + c.toNat / 64)).val = 0xC0 + c.toNat / 64 := byteOf_val _ (by omega)
    have e1 : (byteOf (0x80 + c.toNat % 64)).val = 0x80 + c.toNat % 64 := byteOf_val _ (by omega)
    have k0 : ¬ (0xC0 + c.toNat / 64 < 0x80) := by omega
    have k1 : ¬ (0xC0 + c.toNat / 64 < 0xC2) := by omega
    have k2 : 0xC0 + c.toNat / 64 < 0xE0 := by omega
    have k3 : 0x80 + c.toNat % 64 ≤ 0xBF := by omega
    simp [decodeRune, e0, e1, k0, k1, k2, k3]
    refine Eq.trans (congrArg Char.ofNat ?_) hc
    omega
  · have e0 : (byteOf (0xE0 + c.toNat / 4096)).val = 0xE0 + c.toNat / 4096 :=
      byteOf_val _ (by omega)
    have e1 : (byteOf (0x80 + c.toNat / 64 % 64)).val = 0x80 + c.toNat / 64 % 64 :=
      byteOf_val _ (by omega)
    have e2 : (byteOf (0x80 + c.toNat % 64)).val = 0x80 + c.toNat % 64 := byteOf_val _ (by omega)
    have k0 : ¬ (0xE0 + c.toNat / 4096 < 0x80) := by omega
    have k1 : ¬ (0xE0 + c.toNat / 4096 < 0xC2) := by omega
    have k2 : ¬ (0xE0 + c.toNat / 4096 < 0xE0) := by omega
    have k3 : 0xE0 + c.toNat / 4096 < 0xF0 := by omega
    have k4 : (if 0xE0 + c.toNat / 4096 = 0xE0 then 0xA0 else 0x80) ≤ 0x80 + c.toNat / 64 % 64 := by
      split_ifs <;> omega
    have k5 : 0x80 + c.toNat / 64 % 64 ≤ (if 0xE0 + c.toNat / 4096 = 0xED then 0x9F else 0xBF) := by
      split_ifs <;> omega
    have k6 : 0x80 + c.toNat % 64 ≤ 0xBF := by omega
    simp only [decodeRune, List.cons_append, List.map_cons, e0, e1, e2, k0, k1, k2, k3, k4, k5, k6,
      if_true, if_false, and_self, and_true, true_and, Nat.le_add_right, List.length_cons,
      List.length_nil, Option.some.injEq, Prod.mk.injEq]
    refine Eq.trans (congrArg Char.ofNat ?_) hc
    omega
  · have e0 : (byteOf (0xF0 + c.toNat / 262144)).val = 0xF0 + c.toNat / 262144 :=
      byteOf_val _ (by omega)
    have e1 : (byteOf (0x80 + c.toNat / 4096 % 64)).val = 0x80 + c.toNat / 4096 % 64 :=
      byteOf_val _ (by omega)
    have e2 : (byteOf (0x80 + c.toNat / 64 % 64)).val = 0x80 + c.toNat / 64 % 64 :=
      byteOf_val _ (by omega)
    have e3 : (byteOf (0x80 + c.toNat % 64)).val = 0x80 + c.toNat % 64 := byteOf_val _ (by omega)
    have k0 : ¬ (0xF0 + c.toNat / 262144 < 0x80) := by omega
    have k1 : ¬ (0xF0 + c.toNat / 262144 < 0xC2) := by omega
    have k2 : ¬ (0xF0 + c.toNat / 262144 < 0xE0) := by omega
    have k3 : ¬ (0xF0 + c.toNat / 262144 < 0xF0) := by omega
    have k3b : 0xF0 + c.toNat / 262144 < 0xF5 := by omega
    have k4 : (if 0xF0 + c.toNat / 262144 = 0xF0 then 0x90 else 0x80)
        ≤ 0x80 + c.toNat / 4096 % 64 := by
      split_ifs <;> omega
    have k5 : 0x80 + c.toNat / 4096 % 64
        ≤ (if 0xF0 + c.toNat / 262144 = 0xF4 then 0x8F else 0xBF) := by
      split_ifs <;> omega
    have k6 : 0x80 + c.toNat / 64 % 64 ≤ 0xBF := by omega
    have k7 : 0x80 + c.toNat % 64 ≤ 0xBF := by omega
    simp only [decodeRune, List.cons_append, List.map_cons, e0, e1, e2, e3, k0, k1, k2, k3, k3b,
      k4, k5, k6, k7, if_true, if_false, and_self, and_true, true_and, Nat.le_add_right,
      List.length_cons, List.length_nil, Option.some.injEq, Prod.mk.injEq]
    refine Eq.trans (congrArg Char.ofNat ?_) hc
    omega

theorem jsonRunes_skip (l rest : GoString) :
    jsonRunes l.length (l ++ rest) = jsonRunes 0 rest := by
  induction l with
  | nil => rfl
  | cons b t ih => simpa [jsonRunes] using ih

theorem encodeRune_ne_nil (c : Char) : encodeRune c ≠ [] := by
  unfold encodeRune
  simp only
  split_ifs <;> simp

theorem jsonRunes_encodeRunes (cs : List Char) : jsonRunes 0 (encodeRunes cs) = cs := by
  induction cs with
  | nil => rfl
  | cons c cs ih =>
    have hd := decodeRune_encodeRune c (encodeRunes cs)
    rcases he : encodeRune c with _ | ⟨b, t⟩
    · exact absurd he (encodeRune_ne_nil c)
    · rw [he, List.cons_append] at hd
      simp only [encodeRunes, he, List.cons_append, jsonRunes]
      rw [hd]
      simp only [List.length_cons, Nat.add_sub_cancel]
      rw [jsonRunes_skip, ih]

/-- The JSON string written for a Go string that holds a text is that text. -/
theorem jsonText_lit (s : String) : jsonText (lit s) = s := by
  unfold jsonText lit
  rw [jsonRunes_encodeRunes]

/-! ## Lemmas on `net/url` -/

theorem cut_of_not_mem (sep : Byte) (s : GoString) (h : sep ∉ s) :
    cut sep s = (s, [], false) := by
  induction s with
  | nil => rfl
  | cons b t ih =>
    have hb : b ≠ sep := fun e => h (e ▸ List.mem_cons_self _ _)
    have ht : sep ∉ t := fun e => h (List.mem_cons_of_mem _ e)
    simp [cut, hb, ih ht]

theorem breakAt_append (sep : Byte) (a rest : GoString) (h : sep ∉ a) :
    breakAt sep (a ++ sep :: rest) = (a, sep :: rest) := by
  induction a with
  | nil => simp [breakAt]
  | cons b t ih =>
    have hb : b ≠ sep := fun e => h (e ▸ List.mem_cons_self _ _)
    have ht : sep ∉ t := fun e => h (List.mem_cons_of_mem _ e)
    simp [breakAt, hb, ih ht]

theorem getSchemeLoop_letters (rawURL acc l rest : GoString)
    (hl : ∀ b ∈ l, isLetter b = true) (hne : acc ++ l ≠ []) :
    getSchemeLoop rawURL acc (l ++ byte ':' :: rest) = .ok (acc ++ l, rest) := by
  induction l generalizing acc with
  | nil =>
    have hacc : acc ≠ [] := by simpa using hne
    have h1 : isLetter (byte ':') = false := by decide
    have h2 : isDigit (byte ':') = false := by decide
    have h3 : byte ':' ≠ byte '+' ∧ byte ':' ≠ byte '-' ∧ byte ':' ≠ byte '.' := by decide
    simp [getSchemeLoop, h1, h2, h3, hacc]
  | cons b t ih =>
    have hb : isLetter b = true := hl b (List.mem_cons_self _ _)
    have ht : ∀ x ∈ t, isLetter x = true := fun x hx => hl x (List.mem_cons_of_mem _ hx)
    have h := ih (acc ++ [b]) ht (by simp)
    simpa [getSchemeLoop, hb] using h

set_option maxRecDepth 100000 in
theorem safe_facts : ∀ b : Byte, shouldEscapePath b = false →
    (b.val < 0x20 || b.val = 0x7F) = false ∧ b ≠ byte '#' ∧ b ≠ byte '?' ∧ b ≠ byte '%' := by
  decide

theorem stringContainsCTLByte_of_safe (s : GoString)
    (h : ∀ b ∈ s, shouldEscapePath b = false) : stringContainsCTLByte s = false := by
  unfold stringContainsCTLByte
  rw [List.any_eq_false]
  intro b hb
  have hc := (safe_facts b (h b hb)).1
  rw [hc]
  exact Bool.false_ne_true

theorem unescape_of_safe (s : GoString) (h : ∀ b ∈ s, shouldEscapePath b = false) :
    unescape s = .ok s := by
  induction s with
  | nil => rfl
  | cons b t ih =>
    have hb : b ≠ byte '%' := (safe_facts b (h b (List.mem_cons_self _ _))).2.2.2
    have iht := ih (fun x hx => h x (List.mem_cons_of_mem _ hx))
    rcases t with _ | ⟨h1, _ | ⟨h2, t2⟩⟩ <;> (rw [unescape] <;> simp [hb, iht])

theorem escapePath_of_safe (s : GoString) (h : ∀ b ∈ s, shouldEscapePath b = false) :
    escapePath s = s := by
  induction s with
  | nil => rfl
  | cons b t ih =>
    simp [escapePath, h b (List.mem_cons_self _ _),
      ih (fun x hx => h x (List.mem_cons_of_mem _ hx))]

set_option maxRecDepth 100000 in
/-- The URL `url.Parse` yields for the text the updater builds, when the zone id
and the record id hold only bytes that a path keeps unescaped. -/
theorem urlParse_of_safe (quote : GoString → GoString) (z r : GoString)
    (hz : ∀ b ∈ z, shouldEscapePath b = false) (hr : ∀ b ∈ r, shouldEscapePath b = false) :
    urlParse quote (lit "https://api.cloudflare.com/client/v4/zones/" ++ z
        ++ lit "/dns_records/" ++ r)
      = .ok { Scheme := lit "https", Opaque := [], Host := lit "api.cloudflare.com",
              Path := lit "/client/v4/zones/" ++ z ++ lit "/dns_records/" ++ r,
              RawPath := [], ForceQuery := false, RawQuery := [], Fragment := [] } := by
  have hP : lit "https://api.cloudflare.com/client/v4/zones/"
      = lit "https" ++ byte ':' :: byte '/' :: byte '/' ::
          (lit "api.cloudflare.com" ++ byte '/' :: lit "client/v4/zones/") := by decide
  have hQ : lit "/client/v4/zones/" = byte '/' :: lit "client/v4/zones/" := by decide
  have hsP : ∀ b ∈ lit "https://api.cloudflare.com/client/v4/zones/",
      shouldEscapePath b = false := by decide
  have hsM : ∀ b ∈ lit "/dns_records/", shouldEscapePath b = false := by decide
  have hsQ : ∀ b ∈ lit "/client/v4/zones/", shouldEscapePath b = false := by decide
  have hsA : ∀ b ∈ lit "//api.cloudflare.com", shouldEscapePath b = false := by decide
  -- the whole text and its parts hold only bytes that stay unescaped
  have hs : ∀ b ∈ lit "https://api.cloudflare.com/client/v4/zones/" ++ z
      ++ lit "/dns_records/" ++ r, shouldEscapePath b = false := by
    intro b hb
    simp only [List.mem_append] at hb
    rcases hb with ((hb | hb) | hb) | hb
    · exact hsP b hb
    · exact hz b hb
    · exact hsM b hb
    · exact hr b hb
  have hpath : ∀ b ∈ lit "/client/v4/zones/" ++ z ++ lit "/dns_records/" ++ r,
      shouldEscapePath b = false := by
    intro b hb
    simp only [List.mem_append] at hb
    rcases hb with ((hb | hb) | hb) | hb
    · exact hsQ b hb
    · exact hz b hb
    · exact hsM b hb
    · exact hr b hb
  have hrest : ∀ b ∈ lit "//api.cloudflare.com" ++ (lit "/client/v4/zones/" ++ z
      ++ lit "/dns_records/" ++ r), shouldEscapePath b = false := by
    intro b hb
    rcases List.mem_append.mp hb with hb | hb
    · exact hsA b hb
    · exact hpath b hb
  have hfrag : byte '#' ∉ lit "https://api.cloudflare.com/client/v4/zones/" ++ z
      ++ lit "/dns_records/" ++ r := fun hm => (safe_facts _ (hs _ hm)).2.1 rfl
  have hquery : byte '?' ∉ lit "//api.cloudflare.com" ++ (lit "/client/v4/zones/" ++ z
      ++ lit "/dns_records/" ++ r) := fun hm => (safe_facts _ (hrest _ hm)).2.2.1 rfl
  have hstar : lit "https://api.cloudflare.com/client/v4/zones/" ++ z
      ++ lit "/dns_records/" ++ r ≠ lit "*" := by
    intro e
    have hm : byte '*' ∈ lit "https://api.cloudflare.com/client/v4/zones/" ++ z
        ++ lit "/dns_records/" ++ r := by
      rw [e]; decide
    have := hs _ hm
    revert this
    decide
  have hscheme : getScheme (lit "https://api.cloudflare.com/client/v4/zones/" ++ z
      ++ lit "/dns_records/" ++ r)
      = .ok (lit "https", lit "//api.cloudflare.com" ++ (lit "/client/v4/zones/" ++ z
          ++ lit "/dns_records/" ++ r)) := by
    unfold getScheme
    have hA : lit "//api.cloudflare.com" = byte '/' :: byte '/' :: lit "api.cloudflare.com" := by
      decide
    have e : lit "https://api.cloudflare.com/client/v4/zones/" ++ z ++ lit "/dns_records/" ++ r
        = lit "https" ++ byte ':' :: (lit "//api.cloudflare.com" ++ (lit "/client/v4/zones/" ++ z
          ++ lit "/dns_records/" ++ r)) := by
      rw [hP, hA, hQ]
      simp
    conv_lhs => arg 3; rw [e]
    rw [getSchemeLoop_letters _ [] (lit "https") _ (by decide) (by decide)]
    rfl
  have hA : lit "//api.cloudflare.com" = byte '/' :: byte '/' :: lit "api.cloudflare.com" := by
    decide
  have hcount : List.count (byte '?') (lit "//api.cloudflare.com" ++ (lit "/client/v4/zones/" ++ z
      ++ lit "/dns_records/" ++ r)) = 0 := List.count_eq_zero.mpr hquery
  have hbreak : breakAt (byte '/') (lit "api.cloudflare.com" ++ (lit "/client/v4/zones/" ++ z
      ++ lit "/dns_records/" ++ r))
      = (lit "api.cloudflare.com", lit "/client/v4/zones/" ++ z ++ lit "/dns_records/" ++ r) := by
    have e : lit "/client/v4/zones/" ++ z ++ lit "/dns_records/" ++ r
        = byte '/' :: (lit "client/v4/zones/" ++ z ++ lit "/dns_records/" ++ r) := by
      rw [hQ]; simp
    rw [e]
    exact breakAt_append _ _ _ (by decide)
  have hlow : toLower (lit "https") = lit "https" := by decide
  have hne : lit "https" ≠ [] := by decide
  unfold urlParse
  simp only [cut_of_not_mem _ _ hfrag]
  unfold parse
  simp only [stringContainsCTLByte_of_safe _ hs, hstar, hscheme, hlow, hcount,
    cut_of_not_mem _ _ hquery]
  simp only [hA, List.cons_append, List.head?_cons, List.drop_succ_cons, List.drop_zero]
  have h2 : lit "//" = [byte '/', byte '/'] := by decide
  have hu := unescape_of_safe _ hpath
  have he := escapePath_of_safe _ hpath
  simp only [List.append_assoc] at hbreak hu he ⊢
  simp [hne, h2, hbreak, setPath, hu, he]

/-! ## `url.Parse` on the URL text of a record -/

theorem cut_append_of_not_mem (sep : Byte) (a b : GoString) (h : sep ∉ a) :
    cut sep (a ++ b) = (a ++ (cut sep b).1, (cut sep b).2.1, (cut sep b).2.2) := by
  induction a with
  | nil => rfl
  | cons x t ih =>
    have hx : x ≠ sep := fun e => h (e ▸ List.mem_cons_self _ _)
    have ht : sep ∉ t := fun e => h (List.mem_cons_of_mem _ e)
    simp [cut, hx, ih ht]

theorem cut_fst_not_mem (sep : Byte) (s : GoString) : sep ∉ (cut sep s).1 := by
  induction s with
  | nil => simp [cut]
  | cons x t ih =>
    by_cases hx : x = sep
    · simp [cut, hx]
    · simp only [cut, hx, if_false, List.mem_cons, not_or]
      exact ⟨fun e => hx e.symm, ih⟩

/-- What `strings.Cut` returns, put together again. -/
theorem cut_join (sep : Byte) (s : GoString) :
    s = (cut sep s).1 ++ (if (cut sep s).2.2 then sep :: (cut sep s).2.1 else []) ∧
    ((cut sep s).2.2 = false → (cut sep s).2.1 = []) := by
  induction s with
  | nil => simp [cut]
  | cons x t ih =>
    by_cases hx : x = sep
    · simp [cut, hx]
    · simp only [cut, hx, if_false, List.cons_append, List.cons.injEq, true_and]
      exact ih

/-- The test `HasSuffix(s, sep) && Count(s, sep) == 1` in terms of `cut`: the
first separator is the last byte. -/
theorem force_iff (sep : Byte) (s : GoString) :
    (s.getLast? = some sep ∧ s.count sep = 1) ↔
      ((cut sep s).2.2 = true ∧ (cut sep s).2.1 = []) := by
  obtain ⟨hj, hn⟩ := cut_join sep s
  have hp := cut_fst_not_mem sep s
  have hp0 : List.count sep (cut sep s).1 = 0 := List.count_eq_zero.mpr hp
  cases hf : (cut sep s).2.2
  · -- no separator at all
    rw [hf] at hj
    simp only [Bool.false_eq_true, if_false, List.append_nil] at hj
    have hs0 : s.count sep = 0 := by rw [hj]; exact hp0
    simp [hs0]
  · rw [hf] at hj
    simp only [if_true] at hj
    constructor
    · rintro ⟨hl, hc⟩
      refine ⟨rfl, ?_⟩
      by_contra hq
      rw [hj, List.count_append, hp0, List.count_cons_self] at hc
      have hq0 : List.count sep (cut sep s).2.1 = 0 := by omega
      have hmem : sep ∉ (cut sep s).2.1 := List.count_eq_zero.mp hq0
      rw [hj] at hl
      have hne : sep :: (cut sep s).2.1 ≠ [] := by simp
      rw [List.getLast?_append_of_ne_nil _ hne] at hl
      obtain ⟨y, q', hyq⟩ := List.exists_cons_of_ne_nil hq
      rw [hyq, List.getLast?_cons_cons] at hl
      rw [hyq] at hmem
      exact hmem (List.mem_of_getLast?_eq_some hl)
    · rintro ⟨_, hq⟩
      rw [hq] at hj
      constructor
      · rw [hj]; simp
      · rw [hj, List.count_append, hp0]; simp

theorem dropLast_of_force (sep : Byte) (s : GoString)
    (h : (cut sep s).2.2 = true ∧ (cut sep s).2.1 = []) : s.dropLast = (cut sep s).1 := by
  obtain ⟨hj, _⟩ := cut_join sep s
  rw [h.1, h.2] at hj
  conv_lhs => rw [hj]
  simp

set_option maxRecDepth 100000 in
/-- The function `parse` on a URL text that starts with the URL of the zones of
the provider: the scheme and the host are those of `cloudflareAPI`, the text up
to the first question mark is the path, the rest the query. -/
theorem parse_record (quote : GoString → GoString) (x : GoString) :
    parse quote (lit "https://api.cloudflare.com/client/v4/zones/" ++ x) =
      if stringContainsCTLByte (lit "https://api.cloudflare.com/client/v4/zones/" ++ x) then
        .error (lit "net/url: invalid control character in URL")
      else
        match unescape (lit "/client/v4/zones/" ++ (cut (byte '?') x).1) with
        | .error e => .error (escapeErrorText quote e)
        | .ok path =>
          .ok { Scheme := lit "https", Opaque := [], Host := lit "api.cloudflare.com",
                Path := path,
                RawPath := if lit "/client/v4/zones/" ++ (cut (byte '?') x).1 = escapePath path
                  then [] else lit "/client/v4/zones/" ++ (cut (byte '?') x).1,
                ForceQuery := decide ((cut (byte '?') x).2.2 = true ∧ (cut (byte '?') x).2.1 = []),
                RawQuery := (cut (byte '?') x).2.1, Fragment := [] } := by
  have hP : lit "https://api.cloudflare.com/client/v4/zones/"
      = lit "https" ++ byte ':' :: byte '/' :: byte '/' ::
          (lit "api.cloudflare.com" ++ byte '/' :: lit "client/v4/zones/") := by decide
  have hQ : lit "/client/v4/zones/" = byte '/' :: lit "client/v4/zones/" := by decide
  have hA : lit "//api.cloudflare.com" = byte '/' :: byte '/' :: lit "api.cloudflare.com" := by
    decide
  have hstar : lit "https://api.cloudflare.com/client/v4/zones/" ++ x ≠ lit "*" := by
    intro e
    have hl := congrArg List.length e
    have h1 : (lit "https://api.cloudflare.com/client/v4/zones/").length = 43 := by decide
    have h2 : (lit "*").length = 1 := by decide
    rw [List.length_append, h1, h2] at hl
    omega
  have hscheme : getScheme (lit "https://api.cloudflare.com/client/v4/zones/" ++ x)
      = .ok (lit "https", lit "//api.cloudflare.com" ++ (lit "/client/v4/zones/" ++ x)) := by
    unfold getScheme
    have e : lit "https://api.cloudflare.com/client/v4/zones/" ++ x
        = lit "https" ++ byte ':' :: (lit "//api.cloudflare.com" ++ (lit "/client/v4/zones/" ++ x)) := by
      rw [hP, hA, hQ]
      simp
    conv_lhs => arg 3; rw [e]
    rw [getSchemeLoop_letters _ [] (lit "https") _ (by decide) (by decide)]
    rfl
  have hcut : cut (byte '?') (lit "//api.cloudflare.com" ++ (lit "/client/v4/zones/" ++ x))
      = (lit "//api.cloudflare.com" ++ (lit "/client/v4/zones/" ++ (cut (byte '?') x).1),
          (cut (byte '?') x).2.1, (cut (byte '?') x).2.2) := by
    rw [← List.append_assoc, cut_append_of_not_mem _ _ _ (by decide), List.append_assoc]
  have hbreak : breakAt (byte '/') (lit "api.cloudflare.com" ++ (lit "/client/v4/zones/"
      ++ (cut (byte '?') x).1))
      = (lit "api.cloudflare.com", lit "/client/v4/zones/" ++ (cut (byte '?') x).1) := by
    rw [hQ]
    exact breakAt_append _ _ _ (by decide)
  have hlow : toLower (lit "https") = lit "https" := by decide
  have hne : lit "https" ≠ [] := by decide
  have h2 : lit "//" = [byte '/', byte '/'] := by decide
  have hforce := force_iff (byte '?') (lit "//api.cloudflare.com" ++ (lit "/client/v4/zones/" ++ x))
  rw [hcut] at hforce
  simp only at hforce
  unfold parse
  by_cases hctl : stringContainsCTLByte (lit "https://api.cloudflare.com/client/v4/zones/" ++ x)
      = true
  · simp only [hctl, if_true]
  · simp only [hctl, hstar, hscheme, hlow, hcut, Bool.false_eq_true, if_false]
    by_cases hf : (cut (byte '?') x).2.2 = true ∧ (cut (byte '?') x).2.1 = []
    · have hd := dropLast_of_force (byte '?')
        (lit "//api.cloudflare.com" ++ (lit "/client/v4/zones/" ++ x)) (by rw [hcut]; exact hf)
      rw [hcut] at hd
      simp only at hd
      simp only [hforce.mpr hf, hf, hd, and_self, decide_True, if_true]
      simp only [hA, List.cons_append, List.head?_cons, List.drop_succ_cons, List.drop_zero]
      rcases hu : unescape (lit "/client/v4/zones/" ++ (cut (byte '?') x).1) with e | path
      · simp [hne, h2, hbreak, setPath, hu, hf.2]
      · simp [hne, h2, hbreak, setPath, hu, hf.2]
        split_ifs <;> rfl
    · have hnf : ¬ ((lit "//api.cloudflare.com" ++ (lit "/client/v4/zones/" ++ x)).getLast?
          = some (byte '?') ∧
          List.count (byte '?') (lit "//api.cloudflare.com" ++ (lit "/client/v4/zones/" ++ x))
            = 1) := fun h => hf (hforce.mp h)
      simp only [hnf, hf, decide_False, Bool.false_eq_true, if_false]
      simp only [hA, List.cons_append, List.head?_cons, List.drop_succ_cons, List.drop_zero]
      rcases hu : unescape (lit "/client/v4/zones/" ++ (cut (byte '?') x).1) with e | path
      · simp [hne, h2, hbreak, setPath, hu]
      · simp [hne, h2, hbreak, setPath, hu]
        split_ifs <;> rfl

theorem upperhex_valid : ∀ n, n < 16 → validEncodedByte (upperhex n) = true := by
  decide

/-- What `escape` writes is a valid encoding. -/
theorem validEncodedPath_escapePath (s : GoString) : validEncodedPath (escapePath s) = true := by
  unfold validEncodedPath
  induction s with
  | nil => rfl
  | cons b t ih =>
    have h1 : validEncodedByte (upperhex (b.val / 16)) = true :=
      upperhex_valid _ (by have := b.isLt; omega)
    have h2 : validEncodedByte (upperhex (b.val % 16)) = true :=
      upperhex_valid _ (by omega)
    have h3 : validEncodedByte (byte '%') = true := by decide
    by_cases hb : shouldEscapePath b = true
    · simp [escapePath, hb, h1, h2, h3, ih]
    · have hv : validEncodedByte b = true := by
        simp only [Bool.not_eq_true] at hb
        simp [validEncodedByte, hb]
      simp [escapePath, hb, hv, ih]

theorem hash_not_mem_of_valid (s : GoString) (h : validEncodedPath s = true) : byte '#' ∉ s := by
  intro hm
  have hv := List.all_eq_true.mp h _ hm
  revert hv
  decide

/-- A byte other than the percent sign stays in front when a text is unescaped. -/
theorem unescape_cons (b : Byte) (t p : GoString) (hb : b ≠ byte '%')
    (h : unescape (b :: t) = .ok p) : ∃ p', p = b :: p' := by
  rcases t with _ | ⟨h1, _ | ⟨h2, t2⟩⟩
  all_goals
    rw [unescape] at h
    simp only [hb, if_false] at h
    split at h
    · injection h with h; exact ⟨_, h.symm⟩
    · exact absurd h (by simp)
  all_goals simp

theorem path_of_record (y path : GoString)
    (hu : unescape (lit "/client/v4/zones/" ++ y) = .ok path) :
    path ≠ lit "*" ∧ escapePath path ≠ [] := by
  have hQ : lit "/client/v4/zones/" = byte '/' :: lit "client/v4/zones/" := by decide
  have hslash : byte '/' ≠ byte '%' := by decide
  have hsafe : shouldEscapePath (byte '/') = false := by decide
  have hst : lit "*" = [byte '*'] := by decide
  obtain ⟨p', hp'⟩ : ∃ p', path = byte '/' :: p' := by
    rw [hQ] at hu
    exact unescape_cons _ _ _ hslash hu
  constructor
  · rw [hp', hst]
    intro e
    injection e with e1 _
    revert e1
    decide
  · rw [hp']; simp [escapePath, hsafe]

set_option maxRecDepth 100000 in
/-- The escaped path of a URL that `parse` yields for a record: the path as it
was written when that is a valid encoding, else the path escaped anew. -/
theorem EscapedPath_record (y q path frag : GoString) (force : Bool)
    (hu : unescape (lit "/client/v4/zones/" ++ y) = .ok path) :
    EscapedPath { Scheme := lit "https", Opaque := [], Host := lit "api.cloudflare.com",
                  Path := path,
                  RawPath := if lit "/client/v4/zones/" ++ y = escapePath path
                    then [] else lit "/client/v4/zones/" ++ y,
                  ForceQuery := force, RawQuery := q, Fragment := frag }
      = (if validEncodedPath (lit "/client/v4/zones/" ++ y) then lit "/client/v4/zones/" ++ y
          else escapePath path) := by
  have hQ : lit "/client/v4/zones/" = byte '/' :: lit "client/v4/zones/" := by decide
  have hstar := (path_of_record y path hu).1
  have hPPne : lit "/client/v4/zones/" ++ y ≠ [] := by rw [hQ]; simp
  unfold EscapedPath
  by_cases he : lit "/client/v4/zones/" ++ y = escapePath path
  · have hv : validEncodedPath (lit "/client/v4/zones/" ++ y) = true := by
      rw [he]; exact validEncodedPath_escapePath path
    simp only [he, if_true, ne_eq, not_true_eq_false, false_and, if_false, hstar]
    rw [← he, hv]
    simp [he]
  · simp only [he, if_false, hu, ne_eq, hPPne, not_false_eq_true, true_and, decide_True,
      and_true, hstar]

set_option maxRecDepth 100000 in
/-- The request URI of a URL that `parse` yields for a record: the escaped
path, then the query when there is a question mark. -/
theorem RequestURI_record (y q path frag : GoString) (found : Bool)
    (hu : unescape (lit "/client/v4/zones/" ++ y) = .ok path)
    (hq : found = false → q = []) :
    RequestURI { Scheme := lit "https", Opaque := [], Host := lit "api.cloudflare.com",
                 Path := path,
                 RawPath := if lit "/client/v4/zones/" ++ y = escapePath path
                   then [] else lit "/client/v4/zones/" ++ y,
                 ForceQuery := decide (found = true ∧ q = []),
                 RawQuery := q, Fragment := frag }
      = (if validEncodedPath (lit "/client/v4/zones/" ++ y) then lit "/client/v4/zones/" ++ y
          else escapePath path) ++ (if found then byte '?' :: q else []) := by
  have hQ : lit "/client/v4/zones/" = byte '/' :: lit "client/v4/zones/" := by decide
  have hPPne : lit "/client/v4/zones/" ++ y ≠ [] := by rw [hQ]; simp
  have hEne := (path_of_record y path hu).2
  have hqm : lit "?" = [byte '?'] := by decide
  have hquery : ∀ r : GoString,
      (if (decide (found = true ∧ q = []) = true ∨ q ≠ []) then r ++ lit "?" ++ q else r)
        = r ++ (if found then byte '?' :: q else []) := by
    intro r
    cases found
    · have := hq rfl
      simp [this]
    · by_cases hqe : q = []
      · simp [hqe, hqm]
      · simp [hqe, hqm]
  have hpath := EscapedPath_record y q path frag (decide (found = true ∧ q = [])) hu
  unfold RequestURI
  simp only [hpath, if_true]
  have hne : (if validEncodedPath (lit "/client/v4/zones/" ++ y) then lit "/client/v4/zones/" ++ y
      else escapePath path) ≠ [] := by
    split_ifs
    · exact hPPne
    · exact hEne
  simp only [hne, if_false]
  exact hquery _

set_option maxRecDepth 100000 in
/-- Where a request for a record goes. When `url.Parse` accepts the URL text,
the scheme, host and request URI of the URL give back that text if and only if
the text after the zones prefix holds no number sign and, up to its first
question mark, only bytes of a valid path encoding. -/
theorem target_iff (quote : GoString → GoString) (zr : GoString) (u : URL)
    (h : urlParse quote (lit "https://api.cloudflare.com/client/v4/zones/" ++ zr) = .ok u) :
    u.Scheme ++ lit "://" ++ u.Host ++ RequestURI u
        = lit "https://api.cloudflare.com/client/v4/zones/" ++ zr ↔
      (byte '#' ∉ zr ∧ validEncodedPath (cut (byte '?') zr).1 = true) := by
  have hpre : lit "https://api.cloudflare.com/client/v4/zones/"
      = lit "https" ++ lit "://" ++ lit "api.cloudflare.com" ++ lit "/client/v4/zones/" := by
    decide
  have hQv : validEncodedPath (lit "/client/v4/zones/") = true := by decide
  have hvapp : ∀ y : GoString, validEncodedPath (lit "/client/v4/zones/" ++ y)
      = validEncodedPath y := by
    intro y
    unfold validEncodedPath at hQv ⊢
    rw [List.all_append, hQv, Bool.true_and]
  -- the fragment is cut off
  obtain ⟨hjz, _⟩ := cut_join (byte '#') zr
  have hxn := cut_fst_not_mem (byte '#') zr
  have hcz := cut_append_of_not_mem (byte '#') (lit "https://api.cloudflare.com/client/v4/zones/")
    zr (by decide)
  rcases hc : cut (byte '#') zr with ⟨x, frag, fh⟩
  rw [hc] at hjz hxn hcz
  simp only at hjz hxn hcz
  -- the query is cut off
  obtain ⟨hjx, hnx⟩ := cut_join (byte '?') x
  rcases hd : cut (byte '?') x with ⟨y, q, fq⟩
  rw [hd] at hjx hnx
  simp only at hjx hnx
  -- the URL
  unfold urlParse at h
  simp only [hcz] at h
  rw [parse_record, hd] at h
  simp only at h
  by_cases hctl : stringContainsCTLByte (lit "https://api.cloudflare.com/client/v4/zones/" ++ x)
      = true
  · simp [hctl] at h
  rcases hu : unescape (lit "/client/v4/zones/" ++ y) with e | path
  · simp [hctl, hu] at h
  have huri := fun f => RequestURI_record y q path f fq hu hnx
  obtain ⟨f, hf⟩ : ∃ f, u = URL.mk (lit "https") [] (lit "api.cloudflare.com") path
      (if lit "/client/v4/zones/" ++ y = escapePath path then [] else lit "/client/v4/zones/" ++ y)
      (decide (fq = true ∧ q = [])) q f := by
    simp only [hctl, hu, Bool.false_eq_true, if_false] at h
    by_cases hfr : frag = []
    · simp only [hfr, if_true, Except.ok.injEq] at h
      exact ⟨[], h.symm⟩
    · simp only [hfr, if_false] at h
      rcases hu2 : unescape frag with e2 | f2
      · simp [hu2] at h
      · simp only [hu2, Except.ok.injEq] at h
        exact ⟨f2, h.symm⟩
  have htarget : u.Scheme ++ lit "://" ++ u.Host ++ RequestURI u
      = lit "https" ++ lit "://" ++ lit "api.cloudflare.com"
        ++ ((if validEncodedPath (lit "/client/v4/zones/" ++ y) then lit "/client/v4/zones/" ++ y
              else escapePath path) ++ (if fq then byte '?' :: q else [])) := by
    rw [hf, huri f]
  rw [htarget, hpre]
  simp only [List.append_assoc, List.append_cancel_left_eq]
  -- what is left: the request URI against the text after the host
  have hqs : byte '#' ∉ (if fq then byte '?' :: q else []) := by
    intro hm
    apply hxn
    rw [hjx]
    exact List.mem_append_right _ hm
  have hy : byte '#' ∉ y := by
    intro hm
    apply hxn
    rw [hjx]
    exact List.mem_append_left _ hm
  have hQh : byte '#' ∉ lit "/client/v4/zones/" := by decide
  constructor
  · intro heq
    -- no number sign on the left, so none on the right
    have hEP : byte '#' ∉ (if validEncodedPath (lit "/client/v4/zones/" ++ y)
        then lit "/client/v4/zones/" ++ y else escapePath path) := by
      split_ifs
      · intro hm
        rcases List.mem_append.mp hm with hm | hm
        · exact hQh hm
        · exact hy hm
      · exact hash_not_mem_of_valid _ (validEncodedPath_escapePath path)
    have hzr : byte '#' ∉ zr := by
      intro hm
      have hm2 : byte '#' ∈ lit "/client/v4/zones/" ++ zr := List.mem_append_right _ hm
      rw [← heq] at hm2
      rcases List.mem_append.mp hm2 with hm3 | hm3
      · exact hEP hm3
      · exact hqs hm3
    have hfh : fh = false := by
      cases fh
      · rfl
      · exfalso
        apply hzr
        rw [hjz]
        simp
    rw [hfh] at hjz
    simp only [Bool.false_eq_true, if_false, List.append_nil] at hjz
    have hcx : cut (byte '?') zr = (y, q, fq) := by rw [hjz]; exact hd
    refine ⟨hzr, ?_⟩
    rw [hcx]
    simp only
    by_contra hv
    have hv' : validEncodedPath (lit "/client/v4/zones/" ++ y) = false := by
      rw [hvapp]; simpa using hv
    rw [hv', hjz] at heq
    simp only [Bool.false_eq_true, if_false] at heq
    conv_rhs at heq => rw [hjx]
    rw [← List.append_assoc] at heq
    have := List.append_cancel_right heq
    have hval := validEncodedPath_escapePath path
    rw [this, hv'] at hval
    exact Bool.false_ne_true hval
  · rintro ⟨hzr, hv⟩
    have hfh : fh = false := by
      cases fh
      · rfl
      · exfalso
        apply hzr
        rw [hjz]
        simp
    rw [hfh] at hjz
    simp only [Bool.false_eq_true, if_false, List.append_nil] at hjz
    have hcx : cut (byte '?') zr = (y, q, fq) := by rw [hjz]; exact hd
    rw [hcx] at hv
    simp only at hv
    rw [hvapp, hv, hjz]
    simp only [if_true]
    conv_rhs => rw [hjx]
    rw [List.append_assoc]

/-! ## Lemmas on traces -/

theorem updateCalls_append (a b : List Event) :
    updateCalls (a ++ b) = updateCalls a ++ updateCalls b := by
  induction a with
  | nil => rfl
  | cons e t ih => cases e <;> simp [updateCalls, ih]

theorem lastSuccess_append (d : GoString) (a b : List (GoString × Option GoString)) :
    lastSuccess d (a ++ b) = lastSuccess (lastSuccess d a) b := by
  induction a generalizing d with
  | nil => rfl
  | cons c t ih =>
    obtain ⟨ip, err⟩ := c
    cases err <;> simp [lastSuccess, ih]

theorem logLines_append (a b : List Event) :
    logLines (a ++ b) = logLines a ++ logLines b := by
  induction a with
  | nil => rfl
  | cons e t ih => cases e <;> simp [logLines, ih]

theorem sentRequests_append (a b : List Event) :
    sentRequests (a ++ b) = sentRequests a ++ sentRequests b := by
  induction a with
  | nil => rfl
  | cons e t ih => cases e <;> simp [sentRequests, ih]

theorem updateCalls_getCurrentIP (w : World) : updateCalls (getCurrentIP w).2 = [] := by
  unfold getCurrentIP
  cases w.httpGet ipCheckAPI <;> rfl

theorem logLines_getCurrentIP (w : World) : logLines (getCurrentIP w).2 = [] := by
  unfold getCurrentIP
  cases w.httpGet ipCheckAPI <;> rfl

theorem sentRequests_getCurrentIP (w : World) : sentRequests (getCurrentIP w).2 = [] := by
  unfold getCurrentIP
  cases w.httpGet ipCheckAPI <;> rfl

/-- A text that starts with another byte than `c` does is not `c`. -/
theorem append_ne_of_head (a b c : GoString)
    (h : a.head? ≠ none ∧ a.head? ≠ c.head?) : a ++ b ≠ c := by
  intro e
  apply h.2
  rw [← e]
  rcases a with _ | ⟨x, xs⟩
  · exact absurd rfl h.1
  · rfl

/-! ## Lemmas on `updateCloudflareRecord` -/

/-- Without one of the four variables `updateCloudflareRecord` returns the
missing-variable error and calls nothing. -/
theorem update_of_missing (w : World) (ip : GoString)
    (h : w.getenv "CF_API_TOKEN" = [] ∨ w.getenv "CF_ZONE_ID" = [] ∨
      w.getenv "CF_RECORD_ID" = [] ∨ w.getenv "CF_RECORD_NAME" = []) :
    updateCloudflareRecord w ip = (some missingEnvError, []) := by
  unfold updateCloudflareRecord
  simp only [h, if_true]

/-- With the four variables present `updateCloudflareRecord` has the URL text
parsed and, when that succeeds, sends the request and turns the exchange into
its result. -/
theorem update_of_configured (w : World) (ip : GoString)
    (h : ¬ (w.getenv "CF_API_TOKEN" = [] ∨ w.getenv "CF_ZONE_ID" = [] ∨
      w.getenv "CF_RECORD_ID" = [] ∨ w.getenv "CF_RECORD_NAME" = [])) :
    updateCloudflareRecord w ip =
      match urlParse w.quote (recordURLText w) with
      | .error err =>
        (some (lit "failed to build request: " ++ err), [.build (lit "PUT") (recordURLText w)])
      | .ok u =>
        (exchangeError (w.roundTrip (builtRequest w ip u)),
          [.build (lit "PUT") (recordURLText w), .send (builtRequest w ip u)]) := by
  have hk : ((lit "Authorization") != (lit "Content-Type")) = true := by decide
  have hA : jsonText (lit "A") = "A" := jsonText_lit "A"
  have hreq : ∀ u : URL, Request.mk (lit "PUT") u
      (headerSet (headerSet [] (lit "Authorization") (lit "Bearer " ++ w.getenv "CF_API_TOKEN"))
        (lit "Content-Type") (lit "application/json"))
      [("type", .str (jsonText (lit "A"))), ("name", .str (jsonText (w.getenv "CF_RECORD_NAME"))),
        ("content", .str (jsonText ip)), ("ttl", .num 1), ("proxied", .bool false)]
      = builtRequest w ip u := by
    intro u
    simp [builtRequest, headerSet, hk, hA]
  unfold updateCloudflareRecord recordURLText
  simp only [h, if_false, jsonMarshal, httpNewRequest]
  cases urlParse w.quote (cloudflareAPI ++ lit "/zones/" ++ w.getenv "CF_ZONE_ID"
      ++ lit "/dns_records/" ++ w.getenv "CF_RECORD_ID") with
  | error err => rfl
  | ok u =>
    simp only [hreq]
    cases w.roundTrip (builtRequest w ip u) with
    | sendFailed err => rfl
    | decodeFailed err => rfl
    | decoded resp => cases hs : resp.Success <;> simp [exchangeError, hs]

theorem updateCalls_updateCloudflareRecord (w : World) (ip : GoString) :
    updateCalls (updateCloudflareRecord w ip).2 = [] := by
  by_cases hc : w.getenv "CF_API_TOKEN" = [] ∨ w.getenv "CF_ZONE_ID" = [] ∨
      w.getenv "CF_RECORD_ID" = [] ∨ w.getenv "CF_RECORD_NAME" = []
  · rw [update_of_missing w ip hc]; rfl
  · rw [update_of_configured w ip hc]
    cases urlParse w.quote (recordURLText w) <;> rfl

theorem logLines_updateCloudflareRecord (w : World) (ip : GoString) :
    logLines (updateCloudflareRecord w ip).2 = [] := by
  by_cases hc : w.getenv "CF_API_TOKEN" = [] ∨ w.getenv "CF_ZONE_ID" = [] ∨
      w.getenv "CF_RECORD_ID" = [] ∨ w.getenv "CF_RECORD_NAME" = []
  · rw [update_of_missing w ip hc]; rfl
  · rw [update_of_configured w ip hc]
    cases urlParse w.quote (recordURLText w) <;> rfl

/-- A request sent by `updateCloudflareRecord` is the built request for the
parsed URL text, and the result of the call is that of its exchange. -/
theorem update_of_sent (w : World) (ip : GoString) (req : Request)
    (h : req ∈ sentRequests (updateCloudflareRecord w ip).2) :
    (∃ u, urlParse w.quote (recordURLText w) = .ok u ∧ req = builtRequest w ip u) ∧
    (updateCloudflareRecord w ip).1 = exchangeError (w.roundTrip req) := by
  by_cases hc : w.getenv "CF_API_TOKEN" = [] ∨ w.getenv "CF_ZONE_ID" = [] ∨
      w.getenv "CF_RECORD_ID" = [] ∨ w.getenv "CF_RECORD_NAME" = []
  · rw [update_of_missing w ip hc] at h
    simp [sentRequests] at h
  · rw [update_of_configured w ip hc] at h ⊢
    cases hn : urlParse w.quote (recordURLText w) with
    | error err => rw [hn] at h; simp [sentRequests] at h
    | ok u =>
      rw [hn] at h
      simp only [sentRequests, List.mem_singleton] at h
      subst h
      exact ⟨⟨u, rfl, rfl⟩, rfl⟩

/-! ## Lemmas on `run` -/

/-- A cycle whose address query failed: `lastIP` is kept and no update is called. -/
theorem run_of_error (w : World) (lastIP err : GoString)
    (h : (getCurrentIP w).1 = .error err) :
    (run w lastIP).1 = lastIP ∧ updateCalls (run w lastIP).2 = [] := by
  have hg := updateCalls_getCurrentIP w
  unfold run
  rcases hw : getCurrentIP w with ⟨r, t⟩
  rw [hw] at h hg
  simp only at h hg
  subst h
  simp [updateCalls_append, hg, updateCalls]

/-- A cycle that observed the address `lastIP` already holds: `lastIP` is kept
and no update is called. -/
theorem run_of_same (w : World) (ip : GoString)
    (h : (getCurrentIP w).1 = .ok ip) :
    (run w ip).1 = ip ∧ updateCalls (run w ip).2 = [] := by
  have hg := updateCalls_getCurrentIP w
  unfold run
  rcases hw : getCurrentIP w with ⟨r, t⟩
  rw [hw] at h hg
  simp only at h hg
  subst h
  simp [updateCalls_append, hg, updateCalls]

/-- A cycle that observed an address other than `lastIP`: one update call, with
that address; `lastIP` becomes the address when the call returned `nil` and is
kept otherwise. -/
theorem run_of_changed (w : World) (lastIP ip : GoString)
    (h : (getCurrentIP w).1 = .ok ip) (hne : lastIP ≠ ip) :
    updateCalls (run w lastIP).2 = [(ip, (updateCloudflareRecord w ip).1)] ∧
    (run w lastIP).1 = (if (updateCloudflareRecord w ip).1 = none then ip else lastIP) := by
  have hg := updateCalls_getCurrentIP w
  have hu := updateCalls_updateCloudflareRecord w ip
  unfold run
  rcases hw : getCurrentIP w with ⟨r, t⟩
  rw [hw] at h hg
  simp only at h hg
  subst h
  rcases hv : updateCloudflareRecord w ip with ⟨e, u⟩
  rw [hv] at hu
  simp only at hu
  cases e <;> simp [hv, hne, updateCalls_append, hg, hu, updateCalls]

/-- After any cycle `lastIP` is the argument of the latest update call of the
cycle that returned `nil`, and the old value when there is none. -/
theorem run_lastSuccess (w : World) (lastIP : GoString) :
    (run w lastIP).1 = lastSuccess lastIP (updateCalls (run w lastIP).2) := by
  rcases hw : (getCurrentIP w).1 with err | ip
  · obtain ⟨h1, h2⟩ := run_of_error w lastIP err hw
    rw [h1, h2]; rfl
  · by_cases hne : lastIP = ip
    · subst hne
      obtain ⟨h1, h2⟩ := run_of_same w lastIP hw
      rw [h1, h2]; rfl
    · obtain ⟨h1, h2⟩ := run_of_changed w lastIP ip hw hne
      rw [h1, h2]
      cases (updateCloudflareRecord w ip).1 <;> simp [lastSuccess]

theorem runAll_lastSuccess (ws : List World) (lastIP : GoString) :
    (runAll ws lastIP).1 = lastSuccess lastIP (updateCalls (runAll ws lastIP).2) := by
  induction ws generalizing lastIP with
  | nil => rfl
  | cons w ws ih =>
    simp only [runAll, updateCalls_append, lastSuccess_append]
    rw [ih, ← run_lastSuccess]

/-- The log lines of a cycle that observed an address other than `lastIP`. -/
theorem run_of_changed_logLines (w : World) (lastIP ip : GoString)
    (h : (getCurrentIP w).1 = .ok ip) (hne : lastIP ≠ ip) :
    lit "IP has not changed, no update needed." ∉ logLines (run w lastIP).2 := by
  have hg := logLines_getCurrentIP w
  have hu := logLines_updateCloudflareRecord w ip
  unfold run
  rcases hw : getCurrentIP w with ⟨r, t⟩
  rw [hw] at h hg
  simp only at h hg
  subst h
  rcases hv : updateCloudflareRecord w ip with ⟨e, u⟩
  rw [hv] at hu
  simp only at hu
  have n1 : lit "Current IP: " ++ ip ≠ lit "IP has not changed, no update needed." :=
    append_ne_of_head _ _ _ (by decide)
  have n2 : lit "Successfully updated Cloudflare DNS record to " ++ ip
      ≠ lit "IP has not changed, no update needed." :=
    append_ne_of_head _ _ _ (by decide)
  cases e with
  | none => simp [hv, hne, logLines_append, hg, hu, logLines, Ne.symm n1, Ne.symm n2]
  | some err =>
    have n3 : lit "Failed to update Cloudflare record: " ++ err
        ≠ lit "IP has not changed, no update needed." :=
      append_ne_of_head _ _ _ (by decide)
    simp [hv, hne, logLines_append, hg, hu, logLines, Ne.symm n1, Ne.symm n3]

/-- The requests a cycle sends are those of its call of `updateCloudflareRecord`. -/
theorem sent_of_run (w : World) (lastIP : GoString) (req : Request)
    (h : req ∈ sentRequests (run w lastIP).2) :
    ∃ ip, (getCurrentIP w).1 = .ok ip ∧ lastIP ≠ ip ∧
      req ∈ sentRequests (updateCloudflareRecord w ip).2 := by
  have hg := sentRequests_getCurrentIP w
  unfold run at h
  rcases hw : getCurrentIP w with ⟨r, t⟩
  rw [hw] at h hg
  simp only at hg
  cases r with
  | error err => simp [sentRequests_append, hg, sentRequests] at h
  | ok ip =>
    refine ⟨ip, rfl, ?_⟩
    by_cases hne : lastIP = ip
    · simp [hne, sentRequests_append, hg, sentRequests] at h
    · refine ⟨hne, ?_⟩
      rcases hv : updateCloudflareRecord w ip with ⟨e, u⟩
      cases e <;> simpa [hv, hne, sentRequests_append, hg, sentRequests] using h

/-- Every element of the list `%+v` prints appears in the printed text. -/
theorem formatElems_contains (es : List ErrorEntry) (m : ErrorEntry) (h : m ∈ es) :
    ∃ s t, formatElems es = s ++ m.Message ++ t := by
  induction es with
  | nil => exact absurd h (List.not_mem_nil _)
  | cons e rest ih =>
    cases rest with
    | nil =>
      have hm : m = e := by simpa using h
      subst hm
      exact ⟨lit "\x7bMessage:", lit "\x7d", by simp [formatElems, formatErrorEntry]⟩
    | cons e2 es2 =>
      rcases List.mem_cons.mp h with hm | hm
      · subst hm
        exact ⟨lit "\x7bMessage:", lit "\x7d" ++ lit " " ++ formatElems (e2 :: es2), by
          simp [formatElems, formatErrorEntry]⟩
      · obtain ⟨s, t, hst⟩ := ih hm
        exact ⟨formatErrorEntry e ++ lit " " ++ s, t, by simp [formatElems, hst]⟩

theorem formatErrors_contains (es : List ErrorEntry) (m : ErrorEntry) (h : m ∈ es)
    (p : GoString) : containsText (p ++ formatErrors es) m.Message := by
  obtain ⟨s, t, hst⟩ := formatElems_contains es m h
  exact ⟨p ++ lit "[" ++ s, t ++ lit "]", by simp [formatErrors, hst]⟩

/-! ## The cycle: `lastIP` and the update calls -/

/-- C1: started from the empty `lastIP`, after every finite sequence of cycles,
whatever the outcomes of `getCurrentIP` and `updateCloudflareRecord` were,
`lastIP` is the argument of the most recent call of `updateCloudflareRecord`
that returned `nil`, and empty when no call did; and a single cycle in which
`getCurrentIP` fails, or in which a call of `updateCloudflareRecord` fails,
leaves `lastIP` as it was. -/
theorem lastIP_is_latest_successful_update (ws : List World) :
    (runAll ws (lit "")).1 = lastSuccess (lit "") (updateCalls (runAll ws (lit "")).2) ∧
    ∀ (w : World) (lastIP : GoString),
      ((∃ err, (getCurrentIP w).1 = .error err) ∨
        (∃ ip err, (ip, some err) ∈ updateCalls (run w lastIP).2)) →
      (run w lastIP).1 = lastIP := by
  refine ⟨runAll_lastSuccess ws (lit ""), ?_⟩
  intro w lastIP h
  rcases h with ⟨err, he⟩ | ⟨ip, err, hm⟩
  · exact (run_of_error w lastIP err he).1
  · rcases hw : (getCurrentIP w).1 with e | cur
    · exact (run_of_error w lastIP e hw).1
    · by_cases hne : lastIP = cur
      · subst hne
        exact (run_of_same w lastIP hw).1
      · obtain ⟨h1, h2⟩ := run_of_changed w lastIP cur hw hne
        rw [h1] at hm
        simp only [List.mem_singleton, Prod.mk.injEq] at hm
        rw [h2, ← hm.2]
        simp

theorem lastIP_is_latest_successful_update_witness :
    (runAll sampleCycles (lit "")).1 = lit "203.0.113.5" ∧
    (run offlineWorld (lit "203.0.113.5")).1 = lit "203.0.113.5" :=
  ⟨(lastIP_is_latest_successful_update sampleCycles).1.trans (by decide),
   (lastIP_is_latest_successful_update []).2 offlineWorld (lit "203.0.113.5")
     (Or.inl ⟨lit "failed to get current IP: dial tcp: no route to host", rfl⟩)⟩

/-- C2 (P3): when `lastIP` is `L`, a cycle observes `B ≠ L` and
`updateCloudflareRecord B` fails, then `lastIP` is still `L` after the cycle,
and a following cycle that observes `B` again calls `updateCloudflareRecord B`
(exactly once) and does not log that the address has not changed. -/
theorem failed_update_is_retried (w1 w2 : World) (L B err : GoString)
    (hne : B ≠ L)
    (h1 : (getCurrentIP w1).1 = .ok B)
    (hf : (updateCloudflareRecord w1 B).1 = some err)
    (h2 : (getCurrentIP w2).1 = .ok B) :
    (run w1 L).1 = L ∧
    updateCalls (run w2 (run w1 L).1).2 = [(B, (updateCloudflareRecord w2 B).1)] ∧
    lit "IP has not changed, no update needed." ∉ logLines (run w2 (run w1 L).1).2 := by
  have hL : (run w1 L).1 = L := by
    rw [(run_of_changed w1 L B h1 (Ne.symm hne)).2, hf]; simp
  rw [hL]
  exact ⟨rfl, (run_of_changed w2 L B h2 (Ne.symm hne)).1,
    run_of_changed_logLines w2 L B h2 (Ne.symm hne)⟩

theorem failed_update_is_retried_witness :
    (run (sampleWorld (sampleEnv "") (lit "203.0.113.5") notFoundAnswer) (lit "198.51.100.7")).1
      = lit "198.51.100.7" ∧
    updateCalls (run (sampleWorld (sampleEnv "") (lit "203.0.113.5") okAnswer)
      (run (sampleWorld (sampleEnv "") (lit "203.0.113.5") notFoundAnswer)
        (lit "198.51.100.7")).1).2
      = [(lit "203.0.113.5", none)] :=
  have h := failed_update_is_retried
    (sampleWorld (sampleEnv "") (lit "203.0.113.5") notFoundAnswer)
    (sampleWorld (sampleEnv "") (lit "203.0.113.5") okAnswer)
    (lit "198.51.100.7") (lit "203.0.113.5")
    (lit "Cloudflare API returned error: [\x7bMessage:record not found\x7d]")
    (by decide) rfl (by decide) rfl
  ⟨h.1, h.2.1.trans (by decide)⟩

/-- C3 (P1) fails as stated: from the empty `lastIP`, two consecutive cycles
observe "203.0.113.5"; the provider rejects the update of the first cycle, and
the second cycle calls `updateCloudflareRecord` again. -/
theorem second_cycle_skip_counterexample :
    ¬ ∀ (L A : GoString) (w1 w2 : World),
        (getCurrentIP w1).1 = .ok A → (getCurrentIP w2).1 = .ok A →
        updateCalls (run w2 (run w1 L).1).2 = [] := by
  intro h
  have h0 := h (lit "") (lit "203.0.113.5")
    (sampleWorld (sampleEnv "") (lit "203.0.113.5") notFoundAnswer)
    (sampleWorld (sampleEnv "") (lit "203.0.113.5") notFoundAnswer) rfl rfl
  revert h0
  decide

/-- C3 (P1), amended: when two consecutive cycles both observe `A`, and the
first cycle either found `lastIP = A` already or had its call of
`updateCloudflareRecord A` return `nil`, the second cycle makes no call of
`updateCloudflareRecord`. -/
theorem second_cycle_skips (w1 w2 : World) (L A : GoString)
    (h1 : (getCurrentIP w1).1 = .ok A)
    (h2 : (getCurrentIP w2).1 = .ok A)
    (hprev : L = A ∨ (updateCloudflareRecord w1 A).1 = none) :
    updateCalls (run w2 (run w1 L).1).2 = [] := by
  have hA : (run w1 L).1 = A := by
    by_cases hLA : L = A
    · subst hLA; exact (run_of_same w1 L h1).1
    · rcases hprev with h | h
      · exact absurd h hLA
      · rw [(run_of_changed w1 L A h1 hLA).2, h]; simp
  rw [hA]
  exact (run_of_same w2 A h2).2

theorem second_cycle_skips_witness :
    updateCalls (run (sampleWorld (sampleEnv "") (lit "203.0.113.5") notFoundAnswer)
      (run (sampleWorld (sampleEnv "") (lit "203.0.113.5") okAnswer) (lit "")).1).2 = [] :=
  second_cycle_skips
    (sampleWorld (sampleEnv "") (lit "203.0.113.5") okAnswer)
    (sampleWorld (sampleEnv "") (lit "203.0.113.5") notFoundAnswer)
    (lit "") (lit "203.0.113.5") rfl rfl (Or.inr (by decide))

/-- C4 (P2) fails as stated: from the empty `lastIP`, a cycle observes
"203.0.113.5" and the next observes "198.51.100.7"; each of the two cycles calls
`updateCloudflareRecord`, so two calls occur, the first with "203.0.113.5". -/
theorem change_single_update_counterexample :
    ¬ ∀ (L A B : GoString) (w1 w2 : World), A ≠ B →
        (getCurrentIP w1).1 = .ok A → (getCurrentIP w2).1 = .ok B →
        (updateCalls ((run w1 L).2 ++ (run w2 (run w1 L).1).2)).map Prod.fst = [B] := by
  intro h
  have h0 := h (lit "") (lit "203.0.113.5") (lit "198.51.100.7")
    (sampleWorld (sampleEnv "") (lit "203.0.113.5") okAnswer)
    (sampleWorld (sampleEnv "") (lit "198.51.100.7") okAnswer) (by decide) rfl rfl
  revert h0
  decide

/-- C4 (P2), amended: for `A ≠ B`, when one cycle observes `A` and the next
observes `B`, exactly one call of `updateCloudflareRecord` occurs across the two
cycles, with argument `B`, if and only if `lastIP` was `A` when the first of
the two cycles started. -/
theorem change_single_update (w1 w2 : World) (L A B : GoString)
    (hne : A ≠ B)
    (h1 : (getCurrentIP w1).1 = .ok A)
    (h2 : (getCurrentIP w2).1 = .ok B) :
    (updateCalls ((run w1 L).2 ++ (run w2 (run w1 L).1).2)).map Prod.fst = [B] ↔ L = A := by
  rw [updateCalls_append]
  constructor
  · intro h
    by_contra hLA
    rw [(run_of_changed w1 L A h1 hLA).1] at h
    simp only [List.singleton_append, List.map_cons, List.cons.injEq] at h
    exact hne h.1
  · intro hLA
    subst hLA
    obtain ⟨e1, e2⟩ := run_of_same w1 L h1
    rw [e1, e2, (run_of_changed w2 L B h2 hne).1]
    rfl

theorem change_single_update_witness :
    (updateCalls ((run (sampleWorld (sampleEnv "") (lit "203.0.113.5") okAnswer)
        (lit "203.0.113.5")).2 ++
      (run (sampleWorld (sampleEnv "") (lit "198.51.100.7") okAnswer)
        (run (sampleWorld (sampleEnv "") (lit "203.0.113.5") okAnswer)
          (lit "203.0.113.5")).1).2)).map
      Prod.fst = [lit "198.51.100.7"] :=
  (change_single_update
    (sampleWorld (sampleEnv "") (lit "203.0.113.5") okAnswer)
    (sampleWorld (sampleEnv "") (lit "198.51.100.7") okAnswer)
    (lit "203.0.113.5") (lit "203.0.113.5") (lit "198.51.100.7") (by decide) rfl rfl).2 rfl

/-- C5 fails as stated: when the echo service answers with an empty body,
`getCurrentIP` returns the empty text successfully, which equals the initial
`lastIP`, and the first cycle of `main` calls nothing. -/
theorem first_cycle_update_counterexample :
    ¬ ∀ (w : World) (sel : List Select) (t : GoString),
        (getCurrentIP w).1 = .ok t →
        ∃ err, (t, err) ∈ updateCalls (main w sel).first := by
  intro h
  obtain ⟨err, hm⟩ := h (sampleWorld (sampleEnv "") (lit "") okAnswer) [] (lit "") rfl
  have he : updateCalls (main (sampleWorld (sampleEnv "") (lit "") okAnswer) []).first = [] := by
    decide
  rw [he] at hm
  exact absurd hm (List.not_mem_nil _)

/-- C5, amended: at process start, for every non-empty text that `getCurrentIP`
returns successfully in the first cycle, the first cycle of `main` calls
`updateCloudflareRecord` with that text (once). -/
theorem first_cycle_update (w : World) (sel : List Select) (t : GoString)
    (h : (getCurrentIP w).1 = .ok t) (hne : t ≠ lit "") :
    updateCalls (main w sel).first = [(t, (updateCloudflareRecord w t).1)] :=
  (run_of_changed w [] t h (Ne.symm hne)).1

theorem first_cycle_update_witness :
    updateCalls (main (sampleWorld (sampleEnv "") (lit "203.0.113.5") okAnswer) []).first
      = [(lit "203.0.113.5", none)] :=
  (first_cycle_update (sampleWorld (sampleEnv "") (lit "203.0.113.5") okAnswer) []
    (lit "203.0.113.5") rfl (by decide)).trans (by decide)

/-! ## The record updater -/

/-- C6 (P4): for every address, when at least one of `CF_API_TOKEN`,
`CF_ZONE_ID`, `CF_RECORD_ID`, `CF_RECORD_NAME` is empty or unset,
`updateCloudflareRecord` returns the missing-variable error and makes no library
call at all (no request is built, none is sent); and when all four are
non-empty it does not return that error. -/
theorem missing_configuration_short_circuits (w : World) (ip : GoString) :
    ((w.getenv "CF_API_TOKEN" = lit "" ∨ w.getenv "CF_ZONE_ID" = lit "" ∨
        w.getenv "CF_RECORD_ID" = lit "" ∨ w.getenv "CF_RECORD_NAME" = lit "") →
      updateCloudflareRecord w ip
        = (some (lit "missing one or more required environment variables"), [])) ∧
    ((w.getenv "CF_API_TOKEN" ≠ lit "" ∧ w.getenv "CF_ZONE_ID" ≠ lit "" ∧
        w.getenv "CF_RECORD_ID" ≠ lit "" ∧ w.getenv "CF_RECORD_NAME" ≠ lit "") →
      (updateCloudflareRecord w ip).1
        ≠ some (lit "missing one or more required environment variables")) := by
  refine ⟨fun h => update_of_missing w ip h, ?_⟩
  rintro ⟨h1, h2, h3, h4⟩
  have hc : ¬ (w.getenv "CF_API_TOKEN" = [] ∨ w.getenv "CF_ZONE_ID" = [] ∨
      w.getenv "CF_RECORD_ID" = [] ∨ w.getenv "CF_RECORD_NAME" = []) := by
    rintro (h | h | h | h)
    · exact h1 h
    · exact h2 h
    · exact h3 h
    · exact h4 h
  rw [update_of_configured w ip hc]
  cases urlParse w.quote (recordURLText w) with
  | error err =>
    exact fun e => append_ne_of_head (lit "failed to build request: ") err _ (by decide)
      (Option.some.inj e)
  | ok u =>
    simp only
    cases w.roundTrip (builtRequest w ip u) with
    | sendFailed err =>
      exact fun e => append_ne_of_head (lit "failed to send update request: ") err _
        (by decide) (Option.some.inj e)
    | decodeFailed err =>
      exact fun e => append_ne_of_head (lit "failed to parse Cloudflare response: ") err _
        (by decide) (Option.some.inj e)
    | decoded resp =>
      cases hs : resp.Success
      · simp only [exchangeError, hs]
        exact fun e => append_ne_of_head (lit "Cloudflare API returned error: ")
          (formatErrors resp.Errors) _ (by decide) (Option.some.inj e)
      · simp [exchangeError, hs]

theorem missing_configuration_short_circuits_witness :
    updateCloudflareRecord (sampleWorld noZoneEnv (lit "203.0.113.5") okAnswer)
        (lit "203.0.113.5")
      = (some (lit "missing one or more required environment variables"), []) ∧
    (updateCloudflareRecord (sampleWorld (sampleEnv "") (lit "203.0.113.5") notFoundAnswer)
      (lit "203.0.113.5")).1 ≠ some (lit "missing one or more required environment variables") :=
  ⟨(missing_configuration_short_circuits
      (sampleWorld noZoneEnv (lit "203.0.113.5") okAnswer) (lit "203.0.113.5")).1
      (Or.inr (Or.inl (by decide))),
   (missing_configuration_short_circuits
      (sampleWorld (sampleEnv "") (lit "203.0.113.5") notFoundAnswer) (lit "203.0.113.5")).2
      ⟨by decide, by decide, by decide, by decide⟩⟩

/-- C7 (P5): when `updateCloudflareRecord` has sent its request (so the four
settings are present) and the exchange delivered a decoded response whose
success flag is false, the call returns an error: the text
"Cloudflare API returned error: " followed by the printed error list, which
contains the message of every entry of the list. -/
theorem provider_failure_surfaces_messages (w : World) (ip : GoString) (req : Request)
    (resp : CloudflareResponse)
    (hs : req ∈ sentRequests (updateCloudflareRecord w ip).2)
    (hr : w.roundTrip req = .decoded resp)
    (hf : resp.Success = false) :
    (updateCloudflareRecord w ip).1
      = some (lit "Cloudflare API returned error: " ++ formatErrors resp.Errors) ∧
    ∀ m ∈ resp.Errors,
      containsText (lit "Cloudflare API returned error: " ++ formatErrors resp.Errors)
        m.Message := by
  refine ⟨?_, fun m hm => formatErrors_contains resp.Errors m hm _⟩
  rw [(update_of_sent w ip req hs).2, hr]
  simp [exchangeError, hf]

set_option maxRecDepth 100000 in
theorem provider_failure_surfaces_messages_witness :
    (updateCloudflareRecord (sampleWorld (sampleEnv "") (lit "203.0.113.5") notFoundAnswer)
        (lit "203.0.113.5")).1
      = some (lit "Cloudflare API returned error: [\x7bMessage:record not found\x7d]") ∧
    containsText (lit "Cloudflare API returned error: [\x7bMessage:record not found\x7d]")
      (lit "record not found") :=
  have h := provider_failure_surfaces_messages
    (sampleWorld (sampleEnv "") (lit "203.0.113.5") notFoundAnswer) (lit "203.0.113.5")
    (builtRequest (sampleWorld (sampleEnv "") (lit "203.0.113.5") notFoundAnswer)
      (lit "203.0.113.5") sampleURL)
    { Success := false, Errors := [{ Message := lit "record not found" }] }
    (by decide) rfl rfl
  ⟨h.1, h.2 { Message := lit "record not found" } (List.mem_singleton.mpr rfl)⟩

set_option maxRecDepth 100000 in
/-- C8 fails as stated. With `CF_ZONE_ID` set to "z1#x" the URL text is cut at the
number sign: the request goes to
"https://api.cloudflare.com/client/v4/zones/z1", and the rest of the text is a
fragment that is not sent. With an echo body that is not valid UTF-8 (the byte
0xFF before "1.2") the content written is U+FFFD followed by "1.2", which is
not the address. So not every request is a PUT to the URL text with content
equal to the address. -/
theorem update_request_shape_counterexample :
    (sentRequests (updateCloudflareRecord (sampleWorld hashZoneEnv (lit "203.0.113.5") okAnswer)
        (lit "203.0.113.5")).2).map requestTarget
      = [lit "https://api.cloudflare.com/client/v4/zones/z1"] ∧
    (sentRequests (updateCloudflareRecord (sampleWorld (sampleEnv "") strayBody okAnswer)
        strayBody).2).map Request.body
      = [[("type", .str "A"), ("name", .str "home.example.com"),
          ("content", .str "\uFFFD1.2"), ("ttl", .num 1), ("proxied", .bool false)]] ∧
    lit "\uFFFD1.2" ≠ strayBody ∧
    ¬ ∀ (w : World) (a : GoString),
        w.getenv "CF_API_TOKEN" ≠ lit "" → w.getenv "CF_ZONE_ID" ≠ lit "" →
        w.getenv "CF_RECORD_ID" ≠ lit "" → w.getenv "CF_RECORD_NAME" ≠ lit "" →
        ∀ req ∈ sentRequests (updateCloudflareRecord w a).2,
          req.method = lit "PUT" ∧
          requestTarget req = lit "https://api.cloudflare.com/client/v4/zones/"
            ++ w.getenv "CF_ZONE_ID" ++ lit "/dns_records/" ++ w.getenv "CF_RECORD_ID" ∧
          req.header = [(lit "Authorization", lit "Bearer " ++ w.getenv "CF_API_TOKEN"),
            (lit "Content-Type", lit "application/json")] ∧
          ∃ name content : String,
            lit name = w.getenv "CF_RECORD_NAME" ∧ lit content = a ∧
            req.body = [("type", .str "A"), ("name", .str name), ("content", .str content),
              ("ttl", .num 1), ("proxied", .bool false)] := by
  refine ⟨by decide, by decide, by decide, ?_⟩
  intro h
  have hsent : sentRequests (updateCloudflareRecord
      (sampleWorld hashZoneEnv (lit "203.0.113.5") okAnswer) (lit "203.0.113.5")).2
      = [builtRequest (sampleWorld hashZoneEnv (lit "203.0.113.5") okAnswer) (lit "203.0.113.5")
          { Scheme := lit "https", Opaque := [], Host := lit "api.cloudflare.com",
            Path := lit "/client/v4/zones/z1", RawPath := [], ForceQuery := false,
            RawQuery := [], Fragment := lit "x/dns_records/r1" }] := by
    decide
  have h0 := (h (sampleWorld hashZoneEnv (lit "203.0.113.5") okAnswer) (lit "203.0.113.5")
    (by decide) (by decide) (by decide) (by decide) _
    (by rw [hsent]; exact List.mem_singleton.mpr rfl)).2.1
  revert h0
  decide

set_option maxRecDepth 100000 in
/-- C8, amended: for every address `a` and every non-empty credential, zone id,
record id and record name, every request `updateCloudflareRecord` sends is a
PUT with the header fields Authorization = "Bearer " ++ credential and
Content-Type = "application/json" and no other, and its body is the JSON
object with exactly the members type = "A", name, content, ttl = 1,
proxied = false, where name and content are the record name and `a` read as
UTF-8 with U+FFFD for every byte outside a well-formed encoding; so name is the
record name, and content is `a`, exactly when these are valid UTF-8. The
request goes to
"https://api.cloudflare.com/client/v4/zones/<zoneId>/dns_records/<recordId>"
if and only if the text "<zoneId>/dns_records/<recordId>" holds no number sign
and, up to its first question mark, only bytes of a valid path encoding (ASCII
letters, digits and one of `-_.~$&+,/:;=@!'()*[]%`). When zone id and record id
hold only ASCII letters, digits and `-_.~$&+,/:;=@`, exactly one request is
sent. -/
theorem update_request_shape (w : World) (a : GoString)
    (h1 : w.getenv "CF_API_TOKEN" ≠ lit "") (h2 : w.getenv "CF_ZONE_ID" ≠ lit "")
    (h3 : w.getenv "CF_RECORD_ID" ≠ lit "") (h4 : w.getenv "CF_RECORD_NAME" ≠ lit "") :
    (∀ req ∈ sentRequests (updateCloudflareRecord w a).2,
      req.method = lit "PUT" ∧
      req.header = [(lit "Authorization", lit "Bearer " ++ w.getenv "CF_API_TOKEN"),
        (lit "Content-Type", lit "application/json")] ∧
      req.body = [("type", .str "A"), ("name", .str (jsonText (w.getenv "CF_RECORD_NAME"))),
        ("content", .str (jsonText a)), ("ttl", .num 1), ("proxied", .bool false)] ∧
      (requestTarget req = lit "https://api.cloudflare.com/client/v4/zones/"
          ++ w.getenv "CF_ZONE_ID" ++ lit "/dns_records/" ++ w.getenv "CF_RECORD_ID" ↔
        (byte '#' ∉ w.getenv "CF_ZONE_ID" ++ lit "/dns_records/" ++ w.getenv "CF_RECORD_ID" ∧
          validEncodedPath (cut (byte '?')
            (w.getenv "CF_ZONE_ID" ++ lit "/dns_records/" ++ w.getenv "CF_RECORD_ID")).1 = true))) ∧
    (lit (jsonText (w.getenv "CF_RECORD_NAME")) = w.getenv "CF_RECORD_NAME" ↔
      ∃ n : String, w.getenv "CF_RECORD_NAME" = lit n) ∧
    (lit (jsonText a) = a ↔ ∃ t : String, a = lit t) ∧
    ((∀ b ∈ w.getenv "CF_ZONE_ID", shouldEscapePath b = false) →
      (∀ b ∈ w.getenv "CF_RECORD_ID", shouldEscapePath b = false) →
      (sentRequests (updateCloudflareRecord w a).2).length = 1) := by
  have hc : ¬ (w.getenv "CF_API_TOKEN" = [] ∨ w.getenv "CF_ZONE_ID" = [] ∨
      w.getenv "CF_RECORD_ID" = [] ∨ w.getenv "CF_RECORD_NAME" = []) := by
    rintro (h | h | h | h)
    · exact h1 h
    · exact h2 h
    · exact h3 h
    · exact h4 h
  have htext : recordURLText w = lit "https://api.cloudflare.com/client/v4/zones/"
      ++ (w.getenv "CF_ZONE_ID" ++ lit "/dns_records/" ++ w.getenv "CF_RECORD_ID") := by
    have e : cloudflareAPI ++ lit "/zones/" = lit "https://api.cloudflare.com/client/v4/zones/" := by
      decide
    unfold recordURLText
    rw [e]
    simp only [List.append_assoc]
  have hvalid : ∀ s : GoString, lit (jsonText s) = s ↔ ∃ t : String, s = lit t := by
    intro s
    constructor
    · intro e
      exact ⟨jsonText s, e.symm⟩
    · rintro ⟨t, rfl⟩
      rw [jsonText_lit]
  refine ⟨?_, hvalid _, hvalid _, ?_⟩
  · intro req hreq
    obtain ⟨u, hu, hreq'⟩ := (update_of_sent w a req hreq).1
    rw [htext] at hu
    have ht := target_iff w.quote _ u hu
    subst hreq'
    refine ⟨rfl, rfl, rfl, ?_⟩
    simp only [requestTarget, builtRequest]
    simp only [List.append_assoc] at ht ⊢
    exact ht
  · intro hz hr
    have hparse := urlParse_of_safe w.quote _ _ hz hr
    simp only [List.append_assoc] at hparse htext
    rw [update_of_configured w a hc, htext, hparse]
    rfl

set_option maxRecDepth 100000 in
theorem update_request_shape_witness :
    (∀ req ∈ sentRequests (updateCloudflareRecord
        (sampleWorld (sampleEnv "") (lit "203.0.113.5") okAnswer) (lit "203.0.113.5")).2,
      req.method = lit "PUT" ∧
      req.header = [(lit "Authorization", lit "Bearer tok"),
        (lit "Content-Type", lit "application/json")] ∧
      req.body = [("type", .str "A"), ("name", .str "home.example.com"),
        ("content", .str "203.0.113.5"), ("ttl", .num 1), ("proxied", .bool false)] ∧
      requestTarget req = lit "https://api.cloudflare.com/client/v4/zones/z1/dns_records/r1") ∧
    (sentRequests (updateCloudflareRecord
        (sampleWorld (sampleEnv "") (lit "203.0.113.5") okAnswer) (lit "203.0.113.5")).2).length
      = 1 :=
  have h := update_request_shape (sampleWorld (sampleEnv "") (lit "203.0.113.5") okAnswer)
    (lit "203.0.113.5") (by decide) (by decide) (by decide) (by decide)
  ⟨fun req hreq =>
      ⟨(h.1 req hreq).1, (h.1 req hreq).2.1, (h.1 req hreq).2.2.1.trans (by decide),
        ((h.1 req hreq).2.2.2.mpr ⟨by decide, by decide⟩).trans (by decide)⟩,
    h.2.2.2 (by decide) (by decide)⟩

/-! ## The end-to-end scenario -/

/-- C10 (E2E): started with the empty `lastIP`, a cycle in which `getCurrentIP`
returns "203.0.113.5" calls `updateCloudflareRecord` with "203.0.113.5", and
every request of the cycle carries the content "203.0.113.5"; when the response
to the request sent is the decoded value with the success flag set and no
errors, the call returns `nil` and `lastIP` becomes "203.0.113.5"; a next cycle
in which `getCurrentIP` returns "203.0.113.5" again makes no call and leaves
`lastIP` as it is. In general, after a cycle that observed `a` and whose call
of `updateCloudflareRecord a` returned `nil`, a cycle observing `a` again makes
no call. -/
theorem e2e_scenario :
    (∀ w1 : World, (getCurrentIP w1).1 = .ok (lit "203.0.113.5") →
      updateCalls (run w1 (lit "")).2
        = [(lit "203.0.113.5", (updateCloudflareRecord w1 (lit "203.0.113.5")).1)] ∧
      ∀ req ∈ sentRequests (run w1 (lit "")).2,
        ("content", JsonValue.str "203.0.113.5") ∈ req.body) ∧
    (∀ (w1 : World) (req : Request), (getCurrentIP w1).1 = .ok (lit "203.0.113.5") →
      req ∈ sentRequests (run w1 (lit "")).2 →
      w1.roundTrip req = .decoded { Success := true, Errors := [] } →
      updateCalls (run w1 (lit "")).2 = [(lit "203.0.113.5", none)] ∧
      (run w1 (lit "")).1 = lit "203.0.113.5") ∧
    (∀ w2 : World, (getCurrentIP w2).1 = .ok (lit "203.0.113.5") →
      updateCalls (run w2 (lit "203.0.113.5")).2 = [] ∧
      (run w2 (lit "203.0.113.5")).1 = lit "203.0.113.5") ∧
    (∀ (a L : GoString) (w1 w2 : World), (getCurrentIP w1).1 = .ok a →
      (a, none) ∈ updateCalls (run w1 L).2 →
      (getCurrentIP w2).1 = .ok a →
      updateCalls (run w2 (run w1 L).1).2 = []) := by
  have hne : lit "" ≠ lit "203.0.113.5" := by decide
  refine ⟨?_, ?_, ?_, ?_⟩
  · intro w1 h1
    refine ⟨(run_of_changed w1 (lit "") _ h1 hne).1, ?_⟩
    intro req hreq
    obtain ⟨ip, hip, _, hsent⟩ := sent_of_run w1 (lit "") req hreq
    rw [h1] at hip
    cases hip
    obtain ⟨u, _, hu⟩ := (update_of_sent w1 _ req hsent).1
    rw [hu]
    simp [builtRequest, jsonText_lit]
  · intro w1 req h1 hreq hresp
    obtain ⟨ip, hip, _, hsent⟩ := sent_of_run w1 (lit "") req hreq
    rw [h1] at hip
    cases hip
    have hnil : (updateCloudflareRecord w1 (lit "203.0.113.5")).1 = none := by
      rw [(update_of_sent w1 _ req hsent).2, hresp]
      rfl
    obtain ⟨c1, c2⟩ := run_of_changed w1 (lit "") _ h1 hne
    rw [c1, c2, hnil]
    simp
  · intro w2 h2
    obtain ⟨c1, c2⟩ := run_of_same w2 _ h2
    exact ⟨c2, c1⟩
  · intro a L w1 w2 h1 hm h2
    have hLa : L ≠ a := by
      intro e
      subst e
      rw [(run_of_same w1 L h1).2] at hm
      exact absurd hm (List.not_mem_nil _)
    obtain ⟨c1, c2⟩ := run_of_changed w1 L a h1 hLa
    rw [c1] at hm
    simp only [List.mem_singleton, Prod.mk.injEq, true_and] at hm
    rw [c2, ← hm]
    simp only [if_true]
    exact (run_of_same w2 a h2).2

set_option maxRecDepth 100000 in
theorem e2e_scenario_witness :
    (updateCalls (run (sampleWorld (sampleEnv "") (lit "203.0.113.5") okAnswer) (lit "")).2
        = [(lit "203.0.113.5", none)] ∧
      (run (sampleWorld (sampleEnv "") (lit "203.0.113.5") okAnswer) (lit "")).1
        = lit "203.0.113.5") ∧
    updateCalls (run (sampleWorld (sampleEnv "") (lit "203.0.113.5") okAnswer)
      (run (sampleWorld (sampleEnv "") (lit "203.0.113.5") okAnswer) (lit "")).1).2 = [] :=
  ⟨e2e_scenario.2.1 (sampleWorld (sampleEnv "") (lit "203.0.113.5") okAnswer)
      (builtRequest (sampleWorld (sampleEnv "") (lit "203.0.113.5") okAnswer)
        (lit "203.0.113.5") sampleURL)
      rfl (by decide) rfl,
   e2e_scenario.2.2.2 (lit "203.0.113.5") (lit "")
      (sampleWorld (sampleEnv "") (lit "203.0.113.5") okAnswer)
      (sampleWorld (sampleEnv "") (lit "203.0.113.5") okAnswer) rfl (by decide) rfl⟩

/-! ## The polling interval -/

theorem Atoi_empty : Atoi (lit "") = .error .invalid := rfl

/-- Within 64 bits the product is not wrapped. -/
theorem wrapInt64_of_range (x : Int) (h1 : -(2 ^ 63) ≤ x) (h2 : x < 2 ^ 63) :
    wrapInt64 x = x := by
  unfold wrapInt64
  norm_num at h1 h2 ⊢
  omega

/-- When `INTERVAL_MINUTES` does not parse (for one, when it is unset), `main`
logs two lines, uses 10 minutes and goes on to the first cycle. -/
theorem main_default_interval (w : World) (sel : List Select) (k : NumErrKind)
    (h : Atoi (w.getenv "INTERVAL_MINUTES") = .error k) :
    (main w sel).intervalMinutes = 10 ∧
    (main w sel).period = 10 * timeMinute ∧
    (main w sel).tc = some (10 * timeMinute) ∧
    (main w sel).startup =
      [.log (lit "Invalid INTERVAL_MINUTES value: " ++
          numErrorText w (w.getenv "INTERVAL_MINUTES") k),
       .log (lit "Using default interval of 10 minutes.")] ∧
    (main w sel).first = (run w (lit "")).2 := by
  simp only [main, h]
  refine ⟨trivial, ?_, ?_, trivial, rfl⟩ <;> decide

/-- When `INTERVAL_MINUTES` parses as `n` and `n` minutes fit a 64 bit count of
nanoseconds, the duration handed to `time.Tick` is `n` minutes, nothing is
logged before the first cycle, and the first cycle runs. -/
theorem main_parsed_interval (w : World) (sel : List Select) (n : Int)
    (h : Atoi (w.getenv "INTERVAL_MINUTES") = .ok n)
    (h1 : -153722867 ≤ n) (h2 : n ≤ 153722867) :
    (main w sel).intervalMinutes = n ∧
    (main w sel).period = n * timeMinute ∧
    (main w sel).startup = [] ∧
    (main w sel).first = (run w (lit "")).2 := by
  simp only [main, h]
  refine ⟨trivial, ?_, trivial, rfl⟩
  apply wrapInt64_of_range <;> (unfold timeMinute; norm_num; omega)

/-- C9 (P6) at `INTERVAL_MINUTES=307445735`: the text parses as the whole number
307445735, and the duration `main` hands to `time.Tick` is the 64 bit product
wrapped around, 26290448384 nanoseconds (about 26 seconds), not 307445735
minutes. -/
theorem interval_overflow :
    Atoi (lit "307445735") = .ok 307445735 ∧
    (main (sampleWorld (sampleEnv "307445735") (lit "203.0.113.5") okAnswer) []).intervalMinutes
      = 307445735 ∧
    (main (sampleWorld (sampleEnv "307445735") (lit "203.0.113.5") okAnswer) []).period
      = 26290448384 ∧
    (main (sampleWorld (sampleEnv "307445735") (lit "203.0.113.5") okAnswer) []).tc
      = some 26290448384 ∧
    (main (sampleWorld (sampleEnv "307445735") (lit "203.0.113.5") okAnswer) []).period
      ≠ 307445735 * timeMinute := by
  refine ⟨rfl, rfl, rfl, rfl, ?_⟩
  decide

end DnsUpdater
